import Mathlib

/-!
# micro_tasker: the cooperative scheduler of `src/scheduler.c`

A shallow embedding of the scheduler's data and of the code paths of
`scheduler.c`.  Machine words are natural numbers; 32-bit sums are reduced
modulo `2 ^ 32` where the C code can wrap.  The `uint8_t` flags `yielding`,
`running` and `pendingEvent` only ever receive `true`, `false` or the zero of
`memset`, so they are booleans here.

The two `jmp_buf` contexts hold no data of the model: a function that
transfers control with `vTaskJump` is cut at the jump into the part that runs
up to the jump and the part that runs once the scheduler jumps back.
The tick source `HAL_GetTick` is external; every read of it is an argument
of the function that performs the read.
-/

namespace MicroTasker

/-! ## Constants -/

/-- The value of `HAL_XTASK_MEM_MARKER` (scheduler.c, line 25). -/
def HAL_XTASK_MEM_MARKER : Nat := 0xcca55acc

/-- The value of `HAL_XTASK_INVALID_HANDLE` (scheduler.h, line 45). -/
def HAL_XTASK_INVALID_HANDLE : Nat := 0xFFFFFFFF

/-- The value of `HAL_XTASK_MAX_TIME` (scheduler.h, line 47). -/
def HAL_XTASK_MAX_TIME : Nat := 0xFFFFFFFF

/-- The value of `HAL_XTASK_MAX_STRING_SIZE` (scheduler.h, line 43). -/
def HAL_XTASK_MAX_STRING_SIZE : Nat := 20

/-- The number of values of a `uint32_t`. -/
def U32 : Nat := 2 ^ 32

/-- The macro `HAL_SET_BIT(REG, BIT)` of hal.h: the value `REG |= BIT` stores. -/
def HAL_SET_BIT (reg bit : Nat) : Nat := reg ||| bit

/-- The macro `HAL_MAX(a, b)` of hal.h. -/
def HAL_MAX (a b : Nat) : Nat := if a > b then a else b

/-! ## The task control block -/

/-- The struct `XTask_CtxTypeDef` (scheduler.c, lines 33-57).  The field
`stack` holds the `stak_size` bytes that `sp_bottom` points at; the list link
`next` is the position of the block in the task list. -/
structure XTask_CtxTypeDef where
  cb : Nat
  args : Nat
  sp_bottom : Nat
  sp_top : Nat
  events : Nat
  stak_size : Nat
  delay_end : Nat
  event_expire_end : Nat
  ticks_accumulated : Nat
  ticks_peek : Nat
  ticks_avg : Nat
  ticks_start : Nat
  name : List Nat
  yielding : Bool
  running : Bool
  pendingEvent : Bool
  stk_color : Nat
  mem_marker : Nat
  stack : List Nat
  deriving DecidableEq, Repr

/-! ## The main loop of `vTaskStartScheduler`, for one block -/

/-- Lines 529-543 of scheduler.c: one visit of the main loop to a block, up to
and including the decision to `vSchedJump` into the task.  `t1`, `t2`, `t3`
are the values `HAL_GetTick` returns at lines 532, 536 and 540.  The result
is the block as the visit leaves it and whether the task was resumed. -/
def schedVisit (c : XTask_CtxTypeDef) (t1 t2 t3 : Nat) : XTask_CtxTypeDef × Bool :=
  let c0 := { c with ticks_start := 0 }
  if c0.running = true ∧ (c0.yielding = true ∨ c0.events ≠ 0 ∨ t1 ≥ c0.event_expire_end) then
    if c0.delay_end = 0 ∨ c0.delay_end ≤ t2 then
      ({ c0 with delay_end := 0, yielding := false, ticks_start := t3 }, true)
    else (c0, false)
  else (c0, false)

/-- Lines 549-554 of scheduler.c: the statistics the main loop collects once
it has control again; `t4` is the value `HAL_GetTick` returns at line 551. -/
def schedCollect (c : XTask_CtxTypeDef) (t4 : Nat) : XTask_CtxTypeDef :=
  if c.ticks_start > 0 then
    let ticks_spent := (t4 + U32 - c.ticks_start % U32) % U32
    { c with
      ticks_peek := HAL_MAX c.ticks_peek ticks_spent
      ticks_accumulated := (c.ticks_accumulated + ticks_spent) % U32 }
  else c

/-! ## The task-side calls, on the block of the calling task -/

/-- Lines 313-315 of scheduler.c: the end of `xTaskNotifyWait`, reached on the
fast path and again when the scheduler jumps back into the task after
`vTaskJump`.  The result is the block and the value `stored` that the call
returns. -/
def xTaskNotifyWait_resume (c : XTask_CtxTypeDef) : XTask_CtxTypeDef × Nat :=
  ({ c with pendingEvent := false, events := 0 }, c.events)

/-- Lines 299-316 of scheduler.c for the context `c` that `xTaskGetContext`
found, up to the first return or jump; `tick` is the value of `HAL_GetTick`
at line 307.  The second component is `some stored` when the call returns to
its caller and `none` when it leaves through `vTaskJump`. -/
def xTaskNotifyWait_ctx (c : XTask_CtxTypeDef) (tick ticksToWait : Nat) :
    XTask_CtxTypeDef × Option Nat :=
  if c.running = true then
    if c.events = 0 then
      let c1 := { c with pendingEvent := true }
      let c2 :=
        if ticksToWait > 0 ∧ ticksToWait ≠ HAL_XTASK_MAX_TIME then
          { c1 with event_expire_end := (tick + ticksToWait) % U32 }
        else c1
      (c2, none)
    else
      ((xTaskNotifyWait_resume c).1, some (xTaskNotifyWait_resume c).2)
  else (c, some 0)

/-- Lines 334-338 of scheduler.c for the context `c` that `xTaskGetContext`
found; the flag tells whether the call left through `vTaskJump`. -/
def taskYIELD_ctx (c : XTask_CtxTypeDef) : XTask_CtxTypeDef × Bool :=
  if c.running = true then ({ c with yielding := true }, true) else (c, false)

/-- Lines 356-365 of scheduler.c for the context `c` that `xTaskGetContext`
found; `tick` is the value of `HAL_GetTick` at line 362 and the flag tells
whether the call left through `vTaskJump`. -/
def vTaskDelay_ctx (c : XTask_CtxTypeDef) (tick delay : Nat) : XTask_CtxTypeDef × Bool :=
  if c.running = true then
    let c1 := { c with yielding := true }
    let c2 := if delay > 0 then { c1 with delay_end := (tick + delay) % U32 } else c1
    (c2, true)
  else (c, false)

/-- Lines 276-279 of scheduler.c once the handle is known to address the
block `c`: the marker test and `HAL_SET_BIT(ctx->events, event)`. -/
def xTaskNotify_ctx (c : XTask_CtxTypeDef) (event : Nat) : XTask_CtxTypeDef :=
  if c.mem_marker = HAL_XTASK_MEM_MARKER then
    { c with events := HAL_SET_BIT c.events event }
  else c

/-! ## The scheduler state and the calls that take a handle -/

/-- The struct `XTask_ConfigTypeDef` (scheduler.c, lines 63-69), the type of
the global `gXTsk`.  `head` is the task list: the blocks in list order, each
with the address `malloc` gave it, which is its handle.  `cur` is an address,
0 for `NULL`. -/
structure XTask_ConfigTypeDef where
  cur : Nat
  head : List (Nat × XTask_CtxTypeDef)
  running : Bool
  deriving DecidableEq, Repr

/-- The memory of the module: the global `gXTsk` and the function-static
`stk_color` of `xTaskCreate` (line 384), kept as the byte it holds. -/
structure SchedState where
  gXTsk : XTask_ConfigTypeDef
  stk_color : Nat
  deriving DecidableEq, Repr

/-- The state at program start: `gXTsk` as initialised at line 72 and
`stk_color` holding the character A. -/
def SchedState.init : SchedState :=
  { gXTsk := { cur := 0, head := [], running := false }, stk_color := 65 }

/-- The block stored at address `p`, if the task list holds one there. -/
def ctxAt : List (Nat × XTask_CtxTypeDef) → Nat → Option XTask_CtxTypeDef
  | [], _ => none
  | (a, c) :: rest, p => if a = p then some c else ctxAt rest p

/-- The task list after a store of the block `v` through the pointer `p`. -/
def ctxStore : List (Nat × XTask_CtxTypeDef) → Nat → XTask_CtxTypeDef →
    List (Nat × XTask_CtxTypeDef)
  | [], _, _ => []
  | (a, c) :: rest, p, v => if a = p then (a, v) :: rest else (a, c) :: ctxStore rest p v

/-- The macro `HAL_VAL_IN_RANGE(val, low, high)` of hal.h,
`((val - low) <= (high - low))` on `uint32_t` operands. -/
def HAL_VAL_IN_RANGE (val low high : Nat) : Bool :=
  decide ((val % U32 + U32 - low % U32) % U32 ≤ (high % U32 + U32 - low % U32) % U32)

/-- The function `xTaskGetContext` (scheduler.c, lines 102-126); `sp` is the
value `HAL_GetStackPointer` returns.  The result is a pointer, 0 for `NULL`.
`gXTsk.cur` only ever holds `NULL` or an element of the list; a `cur` that
addresses no block gives `NULL`. -/
def xTaskGetContext (g : XTask_ConfigTypeDef) (sp : Nat) : Nat :=
  if g.cur = 0 then 0
  else
    match ctxAt g.head g.cur with
    | some c =>
      if HAL_VAL_IN_RANGE sp c.sp_bottom c.sp_top = true then
        if c.mem_marker = HAL_XTASK_MEM_MARKER then g.cur else 0
      else 0
    | none => 0

/-- The function `xTaskNotifyWait` (scheduler.c, lines 290-320) up to its
first return or jump: `some stored` when it returns to the caller, `none`
when it leaves through `vTaskJump`. -/
def xTaskNotifyWait (s : SchedState) (sp tick ticksToWait : Nat) : SchedState × Option Nat :=
  if xTaskGetContext s.gXTsk sp = 0 then (s, some 0)
  else
    match ctxAt s.gXTsk.head (xTaskGetContext s.gXTsk sp) with
    | some c =>
      ({ s with gXTsk := { s.gXTsk with
          head := ctxStore s.gXTsk.head (xTaskGetContext s.gXTsk sp)
            (xTaskNotifyWait_ctx c tick ticksToWait).1 } },
        (xTaskNotifyWait_ctx c tick ticksToWait).2)
    | none => (s, some 0)

/-- The function `taskYIELD` (scheduler.c, lines 327-341) up to its return or
jump; the flag tells whether it left through `vTaskJump`. -/
def taskYIELD (s : SchedState) (sp : Nat) : SchedState × Bool :=
  if xTaskGetContext s.gXTsk sp = 0 then (s, false)
  else
    match ctxAt s.gXTsk.head (xTaskGetContext s.gXTsk sp) with
    | some c =>
      ({ s with gXTsk := { s.gXTsk with
          head := ctxStore s.gXTsk.head (xTaskGetContext s.gXTsk sp) (taskYIELD_ctx c).1 } },
        (taskYIELD_ctx c).2)
    | none => (s, false)

/-- The function `vTaskDelay` (scheduler.c, lines 349-368) up to its return or
jump; the flag tells whether it left through `vTaskJump`. -/
def vTaskDelay (s : SchedState) (sp tick delay : Nat) : SchedState × Bool :=
  if xTaskGetContext s.gXTsk sp = 0 then (s, false)
  else
    match ctxAt s.gXTsk.head (xTaskGetContext s.gXTsk sp) with
    | some c =>
      ({ s with gXTsk := { s.gXTsk with
          head := ctxStore s.gXTsk.head (xTaskGetContext s.gXTsk sp)
            (vTaskDelay_ctx c tick delay).1 } },
        (vTaskDelay_ctx c tick delay).2)
    | none => (s, false)

/-- Modelled from the spec: the macro `LL_APPEND` of `llist.h`, a header that
is not among the sources.  The spec has creation append to the task list and
traversal follow creation order, so the new element goes last. -/
def LL_APPEND (head : List (Nat × XTask_CtxTypeDef)) (add : Nat × XTask_CtxTypeDef) :
    List (Nat × XTask_CtxTypeDef) :=
  head ++ [add]

/-- The function `xTaskNotify` (scheduler.c, lines 269-282).  A handle that
addresses no block of the list leaves the state as it is. -/
def xTaskNotify (s : SchedState) (handle event : Nat) : SchedState :=
  if handle ≠ 0 ∧ handle ≠ HAL_XTASK_INVALID_HANDLE then
    match ctxAt s.gXTsk.head handle with
    | some c =>
      { s with gXTsk := { s.gXTsk with
          head := ctxStore s.gXTsk.head handle (xTaskNotify_ctx c event) } }
    | none => s
  else s

/-- The effect of `strncpy(dst, src, n)` on the `n` bytes at `dst`: the
characters of `src` before its terminator, at most `n`, then zero padding. -/
def strncpy (src : List Nat) (n : Nat) : List Nat :=
  ((src.takeWhile (fun ch => ch ≠ 0)).take n) ++
    List.replicate (n - (src.takeWhile (fun ch => ch ≠ 0)).length) 0

/-- The block `xTaskCreate` builds at lines 395-413: the block zeroed by
`memset`, the fields set at lines 398-408 and the stack filled at line 413.
`stk` is the address the second `malloc` returned and `color` the value of
the static `stk_color`. -/
def xTaskCreate_ctx (name : List Nat) (cb stackSize ptr stk color : Nat) : XTask_CtxTypeDef :=
  { cb := cb
    args := ptr
    sp_bottom := stk
    sp_top := (stk + stackSize) % U32
    events := 0
    stak_size := stackSize
    delay_end := 0
    event_expire_end := HAL_XTASK_MAX_TIME
    ticks_accumulated := 0
    ticks_peek := 0
    ticks_avg := 0
    ticks_start := 0
    name := strncpy name HAL_XTASK_MAX_STRING_SIZE
    yielding := false
    running := false
    pendingEvent := false
    stk_color := color % 256
    mem_marker := HAL_XTASK_MEM_MARKER
    stack := List.replicate stackSize (color % 256) }

/-- The function `xTaskCreate` (scheduler.c, lines 378-424).  `mctx` and
`mstk` are the addresses the two calls of `malloc` return, 0 for a failed
allocation.  The result is `none` when the call faults, which is when line
413 fills through a null `sp_bottom` or fills more bytes than the
`stackSize + 1024` (a `uint32_t` sum) that line 404 asked `malloc` for;
otherwise it is the new state and the handle returned. -/
def xTaskCreate (s : SchedState) (name : List Nat) (cb stackSize ptr mctx mstk : Nat) :
    Option (SchedState × Nat) :=
  if s.gXTsk.running = true then some (s, HAL_XTASK_INVALID_HANDLE)
  else if mctx = 0 then some (s, HAL_XTASK_INVALID_HANDLE)
  else
    let ctx := xTaskCreate_ctx name cb stackSize ptr mstk s.stk_color
    let s1 := { s with stk_color := (s.stk_color + 1) % 256 }
    if ctx.sp_top = 0 then some (s1, HAL_XTASK_INVALID_HANDLE)
    else if ctx.sp_bottom = 0 ∧ ctx.stak_size > 0 then none
    else if ctx.stak_size > (stackSize + 1024) % U32 then none
    else
      some ({ s1 with gXTsk := { s1.gXTsk with head := LL_APPEND s1.gXTsk.head (mctx, ctx) } },
        mctx)

/-! ## The life of one task

The block of a task changes through its own calls, through `xTaskNotify`
calls that name it, and through the scheduler: the bootstrap pass that enters
it and the visits of the main loop.  The step function below composes the
code paths above in the orders the control transfers allow. -/

/-- Where the control of a task is. -/
inductive TaskPhase
  /-- Built by `xTaskCreate`, not entered yet. -/
  | created
  /-- Executing its first run segment, entered by the bootstrap pass. -/
  | entered
  /-- Executing, resumed by a visit of the main loop. -/
  | resumed
  /-- Suspended at the `vTaskJump` of `taskYIELD`. -/
  | inYield
  /-- Suspended at the `vTaskJump` of `vTaskDelay`. -/
  | inDelay
  /-- Suspended at the `vTaskJump` of `xTaskNotifyWait`. -/
  | inWait
  deriving DecidableEq, Repr

/-- A task: its block, where its control is, and the value its last completed
call of `xTaskNotifyWait` returned. -/
structure TaskState where
  ctx : XTask_CtxTypeDef
  phase : TaskPhase
  stored : Option Nat
  deriving DecidableEq, Repr

/-- What can happen to a task.  The tick arguments are the values
`HAL_GetTick` returns at the reads the step performs; `t4` is the read of
line 551, made when the main loop has control again. -/
inductive TaskEvent
  /-- The bootstrap pass reaches the block (lines 494-501). -/
  | start
  /-- Some task calls `xTaskNotify` with the handle of this task. -/
  | notify (event : Nat)
  /-- The task calls `taskYIELD`. -/
  | callYield (t4 : Nat)
  /-- The task calls `vTaskDelay`. -/
  | callDelay (tick delay t4 : Nat)
  /-- The task calls `xTaskNotifyWait`. -/
  | callWait (tick ticksToWait t4 : Nat)
  /-- The main loop reaches the block (lines 529-555). -/
  | visit (t1 t2 t3 t4 : Nat)
  deriving DecidableEq, Repr

/-- The block once `vTaskJump` has given control back to the scheduler: the
main loop goes on at line 546 and collects statistics; the bootstrap pass,
which entered the task for its first segment, goes on to the next block. -/
def afterJump (ph : TaskPhase) (c : XTask_CtxTypeDef) (t4 : Nat) : XTask_CtxTypeDef :=
  if ph = TaskPhase.resumed then schedCollect c t4 else c

/-- One step of a task; `none` when the event cannot happen in the phase. -/
def taskStep (s : TaskState) : TaskEvent → Option TaskState
  | TaskEvent.start =>
    if s.phase = TaskPhase.created ∧ s.ctx.mem_marker = HAL_XTASK_MEM_MARKER then
      some { s with ctx := { s.ctx with running := true }, phase := TaskPhase.entered }
    else none
  | TaskEvent.notify event => some { s with ctx := xTaskNotify_ctx s.ctx event }
  | TaskEvent.callYield t4 =>
    if s.phase = TaskPhase.entered ∨ s.phase = TaskPhase.resumed then
      if (taskYIELD_ctx s.ctx).2 = true then
        some { s with ctx := afterJump s.phase (taskYIELD_ctx s.ctx).1 t4,
                      phase := TaskPhase.inYield }
      else some { s with ctx := (taskYIELD_ctx s.ctx).1 }
    else none
  | TaskEvent.callDelay tick delay t4 =>
    if s.phase = TaskPhase.entered ∨ s.phase = TaskPhase.resumed then
      if (vTaskDelay_ctx s.ctx tick delay).2 = true then
        some { s with ctx := afterJump s.phase (vTaskDelay_ctx s.ctx tick delay).1 t4,
                      phase := TaskPhase.inDelay }
      else some { s with ctx := (vTaskDelay_ctx s.ctx tick delay).1 }
    else none
  | TaskEvent.callWait tick ticksToWait t4 =>
    if s.phase = TaskPhase.entered ∨ s.phase = TaskPhase.resumed then
      match (xTaskNotifyWait_ctx s.ctx tick ticksToWait).2 with
      | none =>
        some { s with ctx := afterJump s.phase (xTaskNotifyWait_ctx s.ctx tick ticksToWait).1 t4,
                      phase := TaskPhase.inWait }
      | some v =>
        some { s with ctx := (xTaskNotifyWait_ctx s.ctx tick ticksToWait).1, stored := some v }
    else none
  | TaskEvent.visit t1 t2 t3 t4 =>
    if s.phase = TaskPhase.entered ∨ s.phase = TaskPhase.resumed then none
    else if (schedVisit s.ctx t1 t2 t3).2 = true then
      if s.phase = TaskPhase.created then none
      else if s.phase = TaskPhase.inWait then
        some { ctx := (xTaskNotifyWait_resume (schedVisit s.ctx t1 t2 t3).1).1
               phase := TaskPhase.resumed
               stored := some (xTaskNotifyWait_resume (schedVisit s.ctx t1 t2 t3).1).2 }
      else some { s with ctx := (schedVisit s.ctx t1 t2 t3).1, phase := TaskPhase.resumed }
    else some { s with ctx := schedCollect (schedVisit s.ctx t1 t2 t3).1 t4 }

/-- The task after a sequence of events, `none` if one of them cannot happen. -/
def runTask (s : TaskState) : List TaskEvent → Option TaskState
  | [] => some s
  | e :: es => (taskStep s e).bind (fun s1 => runTask s1 es)

/-- The task `xTaskCreate` leaves in the list. -/
def TaskState.fresh (name : List Nat) (cb stackSize ptr stk color : Nat) : TaskState :=
  { ctx := xTaskCreate_ctx name cb stackSize ptr stk color
    phase := TaskPhase.created
    stored := none }

/-- The states a task can be in: those a sequence of events leads to from
the block `xTaskCreate` builds. -/
def Reachable (s : TaskState) : Prop :=
  ∃ (name : List Nat) (cb stackSize ptr stk color : Nat) (evs : List TaskEvent),
    runTask (TaskState.fresh name cb stackSize ptr stk color) evs = some s

/-- What holds of the flags of a block in each phase. -/
def TaskInv (s : TaskState) : Prop :=
  s.ctx.mem_marker = HAL_XTASK_MEM_MARKER ∧
  match s.phase with
  | TaskPhase.created =>
    s.ctx.running = false ∧ s.ctx.yielding = false ∧ s.ctx.delay_end = 0 ∧
      s.ctx.pendingEvent = false
  | TaskPhase.entered =>
    s.ctx.running = true ∧ s.ctx.yielding = false ∧ s.ctx.delay_end = 0 ∧
      s.ctx.pendingEvent = false
  | TaskPhase.resumed =>
    s.ctx.running = true ∧ s.ctx.yielding = false ∧ s.ctx.delay_end = 0 ∧
      s.ctx.pendingEvent = false
  | TaskPhase.inYield =>
    s.ctx.running = true ∧ s.ctx.yielding = true ∧ s.ctx.delay_end = 0 ∧
      s.ctx.pendingEvent = false
  | TaskPhase.inDelay =>
    s.ctx.running = true ∧ s.ctx.yielding = true ∧ s.ctx.pendingEvent = false
  | TaskPhase.inWait =>
    s.ctx.running = true ∧ s.ctx.yielding = false ∧ s.ctx.delay_end = 0 ∧
      s.ctx.pendingEvent = true

/-- The events that can reach a suspended task without setting a bit of its
`events`: visits of the main loop whose first tick read is below `bound`, and
notifications with an empty mask. -/
def quietEvent (bound : Nat) : TaskEvent → Prop
  | TaskEvent.visit t1 _ _ _ => t1 < bound
  | TaskEvent.notify event => event = 0
  | _ => False

/-- The events that can reach a task suspended in `vTaskDelay`: notifications
and visits of the main loop whose tick read at line 536 is below `bound`. -/
def earlyEvent (bound : Nat) : TaskEvent → Prop
  | TaskEvent.visit _ t2 _ _ => t2 < bound
  | TaskEvent.notify _ => True
  | _ => False

/-- The union of a sequence of masks. -/
def maskUnion (masks : List Nat) : Nat := masks.foldl (fun acc m => acc ||| m) 0

/-- The state after `xTaskNotify(handle, m)` for each mask of a sequence. -/
def notifyAll (s : SchedState) (handle : Nat) (masks : List Nat) : SchedState :=
  masks.foldl (fun st m => xTaskNotify st handle m) s

/-! ## Scheduler start, traversal and the handle-level scheduler steps -/

/-- The function `xTaskGetHandle` (scheduler.c, lines 431-443); `sp` is the
value `HAL_GetStackPointer` returns inside `xTaskGetContext`. -/
def xTaskGetHandle (g : XTask_ConfigTypeDef) (sp : Nat) : Nat :=
  if xTaskGetContext g sp ≠ 0 then xTaskGetContext g sp else HAL_XTASK_INVALID_HANDLE

/-- How a call of `vTaskStartScheduler` leaves its first lines: it returns a
value, or it goes on to the settle delay and the bootstrap pass. -/
inductive StartResult
  /-- The call returned `value`, the state being `s`. -/
  | returned (value : Bool) (s : SchedState)
  /-- The call passed both guards and reaches line 487 in state `s`. -/
  | bootstrap (s : SchedState)
  deriving DecidableEq, Repr

/-- Lines 478-484 of scheduler.c: the two guards of `vTaskStartScheduler`. -/
def vTaskStartScheduler (s : SchedState) : StartResult :=
  if s.gXTsk.running = true then StartResult.returned false s
  else if s.gXTsk.head = [] then StartResult.returned false s
  else StartResult.bootstrap s

/-- Lines 492-501 of scheduler.c for the list element at address `p`: the
bootstrap pass sets `gXTsk.cur` to it and, when the marker matches, sets
`running` and enters the task through `vTaskStart`.  The flag tells whether
the task was entered. -/
def bootstrapEnter (s : SchedState) (p : Nat) : SchedState × Bool :=
  match ctxAt s.gXTsk.head p with
  | some c =>
    if c.mem_marker = HAL_XTASK_MEM_MARKER then
      ({ s with gXTsk := { s.gXTsk with
          cur := p, head := ctxStore s.gXTsk.head p { c with running := true } } }, true)
    else ({ s with gXTsk := { s.gXTsk with cur := p } }, false)
  | none => (s, false)

/-- Line 506 of scheduler.c, reached when the bootstrap pass is over: the
loop variable `gXTsk.cur` is `NULL` and the scheduler is marked running. -/
def bootstrapDone (s : SchedState) : SchedState :=
  { s with gXTsk := { s.gXTsk with cur := 0, running := true } }

/-- Lines 529-543 of scheduler.c for the list element at address `p`: the
main loop sets `gXTsk.cur` to it and visits it. -/
def schedVisitAt (s : SchedState) (p t1 t2 t3 : Nat) : SchedState × Bool :=
  match ctxAt s.gXTsk.head p with
  | some c =>
    ({ s with gXTsk := { s.gXTsk with
        cur := p, head := ctxStore s.gXTsk.head p (schedVisit c t1 t2 t3).1 } },
      (schedVisit c t1 t2 t3).2)
  | none => (s, false)

/-- Lines 549-554 of scheduler.c for the list element at address `p`. -/
def schedCollectAt (s : SchedState) (p t4 : Nat) : SchedState :=
  match ctxAt s.gXTsk.head p with
  | some c =>
    { s with gXTsk := { s.gXTsk with head := ctxStore s.gXTsk.head p (schedCollect c t4) } }
  | none => s

/-- Lines 313-315 of scheduler.c for the block at `p`, the value of the local
`ctx` of the call of `xTaskNotifyWait` that the scheduler jumps back into. -/
def xTaskNotifyWait_resumeAt (s : SchedState) (p : Nat) : SchedState × Nat :=
  match ctxAt s.gXTsk.head p with
  | some c =>
    ({ s with gXTsk := { s.gXTsk with
        head := ctxStore s.gXTsk.head p (xTaskNotifyWait_resume c).1 } },
      (xTaskNotifyWait_resume c).2)
  | none => (s, 0)

/-- Modelled from the spec: the macro `LL_FOREACH` of `llist.h`, a header that
is not among the sources.  The spec has the traversal follow the list from
its head, so the loop variable takes the addresses of the elements in list
order. -/
def LL_FOREACH (head : List (Nat × XTask_CtxTypeDef)) : List Nat :=
  head.map Prod.fst

/-- The operations of the module other than `xTaskCreate`, with the
arguments and the external reads of each. -/
inductive SchedOp
  /-- A call `xTaskNotify(handle, event)`. -/
  | notify (handle event : Nat)
  /-- A call `taskYIELD()` with the stack pointer at `sp`. -/
  | yield (sp : Nat)
  /-- A call `vTaskDelay(delay)`. -/
  | delay (sp tick delay : Nat)
  /-- A call `xTaskNotifyWait(ticksToWait)`, up to its return or jump. -/
  | wait (sp tick ticksToWait : Nat)
  /-- The end of a call of `xTaskNotifyWait` after the jump back. -/
  | waitResume (p : Nat)
  /-- The bootstrap pass reaches the element at `p`. -/
  | enter (p : Nat)
  /-- The bootstrap pass is over. -/
  | started
  /-- The main loop visits the element at `p`. -/
  | visit (p t1 t2 t3 : Nat)
  /-- The main loop collects the statistics of the element at `p`. -/
  | collect (p t4 : Nat)
  deriving DecidableEq, Repr

/-- The state after an operation. -/
def applyOp (s : SchedState) : SchedOp → SchedState
  | SchedOp.notify handle event => xTaskNotify s handle event
  | SchedOp.yield sp => (taskYIELD s sp).1
  | SchedOp.delay sp tick delay => (vTaskDelay s sp tick delay).1
  | SchedOp.wait sp tick ticksToWait => (xTaskNotifyWait s sp tick ticksToWait).1
  | SchedOp.waitResume p => (xTaskNotifyWait_resumeAt s p).1
  | SchedOp.enter p => (bootstrapEnter s p).1
  | SchedOp.started => bootstrapDone s
  | SchedOp.visit p t1 t2 t3 => (schedVisitAt s p t1 t2 t3).1
  | SchedOp.collect p t4 => schedCollectAt s p t4

/-- The arguments of one call of `xTaskCreate` and the addresses its two
calls of `malloc` return. -/
structure CreateArgs where
  name : List Nat
  cb : Nat
  stackSize : Nat
  ptr : Nat
  mctx : Nat
  mstk : Nat
  deriving DecidableEq, Repr

/-- A sequence of calls of `xTaskCreate`: the final state and the handles
returned, in call order; `none` if a call faults. -/
def createAll : SchedState → List CreateArgs → Option (SchedState × List Nat)
  | s, [] => some (s, [])
  | s, a :: rest =>
    match xTaskCreate s a.name a.cb a.stackSize a.ptr a.mctx a.mstk with
    | none => none
    | some (s1, h) =>
      match createAll s1 rest with
      | none => none
      | some (s2, hs) => some (s2, h :: hs)

/-! ## Stack usage -/

/-- The value of `*ptr` for a `char *ptr` at the byte `b`.  The sources are
written for the Microsoft compiler on x86 (`__asm` blocks, `__declspec`,
`windows.h`), where `char` is signed. -/
def charValue (b : Nat) : Int :=
  if b % 256 < 128 then ((b % 256 : Nat) : Int) else ((b % 256 : Nat) : Int) - 256

/-- The conversion of a `uint32_t` value to `int`. -/
def toInt32 (u : Nat) : Int :=
  if u % U32 < 2 ^ 31 then ((u % U32 : Nat) : Int) else ((u % U32 : Nat) : Int) - (U32 : Int)

/-- Lines 182-189 of scheduler.c: the scan loop, from the bytes at `ptr` on
and the current `freeMem`; the result is the final `freeMem`.  `color` is
`ctx->stk_color` and `size` is `ctx->stak_size`.  The scan ends with the
bytes the block holds. -/
def stackScan (color size : Nat) : List Nat → Nat → Nat
  | [], freeMem => freeMem
  | b :: rest, freeMem =>
    if freeMem < size then
      if charValue b ≠ ((color % 256 : Nat) : Int) then freeMem
      else stackScan color size rest (freeMem + 1)
    else freeMem

/-- Lines 181-192 of scheduler.c for the block `c` of a valid handle: the
scan and the percentage.  The result is `none` when line 192 divides by
zero. -/
def xTaskGetStackUsage_ctx (c : XTask_CtxTypeDef) : Option Int :=
  if c.stak_size % U32 = 0 then none
  else
    some (toInt32 ((100 + U32 -
      ((stackScan c.stk_color c.stak_size c.stack 0 * 100) % U32 / (c.stak_size % U32)) % U32)
        % U32))

/-- The function `xTaskGetStackUsage` (scheduler.c, lines 169-196).  A handle
that addresses no block of the list is taken as a marker mismatch. -/
def xTaskGetStackUsage (s : SchedState) (handle : Nat) : Option Int :=
  if handle ≠ 0 ∧ handle ≠ HAL_XTASK_INVALID_HANDLE then
    match ctxAt s.gXTsk.head handle with
    | some c =>
      if c.mem_marker = HAL_XTASK_MEM_MARKER then xTaskGetStackUsage_ctx c else some (-1)
    | none => some (-1)
  else some (-1)

/-- The count the spec calls free (section 4.7): the length of the longest
prefix of the stack buffer, from `stack_base` up, whose bytes all equal
`stack_fill_byte`, capped at `stack_size`. -/
def specFree (c : XTask_CtxTypeDef) : Nat :=
  min ((c.stack.takeWhile (fun b => decide (b = c.stk_color))).length) c.stak_size

/-- The percentage the spec writes (section 4.7): `used * 100 / stack_size`
with `used = stack_size - free`. -/
def specStackUsage (c : XTask_CtxTypeDef) : Int :=
  (((c.stak_size - specFree c) * 100 / c.stak_size : Nat) : Int)

/-! ## The calls a task makes during a run segment -/

/-- The calls of the module that write to the block of the calling task. -/
inductive TaskCall
  /-- A call `xTaskNotify` with the task's own handle. -/
  | notify (event : Nat)
  /-- A call `taskYIELD()`. -/
  | yield
  /-- A call `vTaskDelay(delay)` at tick `tick`. -/
  | delay (tick delay : Nat)
  /-- A call `xTaskNotifyWait(ticksToWait)` at tick `tick`. -/
  | wait (tick ticksToWait : Nat)
  deriving DecidableEq, Repr

/-- The block after the code of a call, up to its return or its jump to the
scheduler. -/
def applyCall (c : XTask_CtxTypeDef) : TaskCall → XTask_CtxTypeDef
  | TaskCall.notify event => xTaskNotify_ctx c event
  | TaskCall.yield => (taskYIELD_ctx c).1
  | TaskCall.delay tick delay => (vTaskDelay_ctx c tick delay).1
  | TaskCall.wait tick ticksToWait => (xTaskNotifyWait_ctx c tick ticksToWait).1

/-! ## The statistics dump -/

/-- The struct `HAL_TimeTypeDef` of hal.h. -/
structure HAL_TimeTypeDef where
  days : Nat
  hours : Nat
  minutes : Nat
  seconds : Nat
  msecs : Nat
  deriving DecidableEq, Repr

/-- The function `HAL_TicksToTime` (hal.c, lines 71-85) for a non-null `time`;
`tick` is the value `HAL_GetTick` returns at line 75. -/
def HAL_TicksToTime (ms tick : Nat) : HAL_TimeTypeDef :=
  let ms1 := if ms = 0 then tick else ms
  { msecs := ms1 % 1000
    seconds := (ms1 / 1000) % 60
    minutes := (ms1 / (1000 * 60)) % 60
    hours := (ms1 / (1000 * 60 * 60)) % 24
    days := ((ms1 / (1000 * 60 * 60)) % 24) / 24 }

/-- The four texts `xTaskDumpStats` copies into `tskState`. -/
inductive TaskLabel
  | Stopped
  | Pending
  | Delaying
  | Executing
  deriving DecidableEq, Repr

/-- Lines 229-239 of scheduler.c: the state text of a block. -/
def tskState (c : XTask_CtxTypeDef) : TaskLabel :=
  if c.running = false then TaskLabel.Stopped
  else if c.pendingEvent = true then TaskLabel.Pending
  else if c.delay_end > 0 then TaskLabel.Delaying
  else TaskLabel.Executing

/-- The four bytes of a `uint32_t` in memory, least significant first, as on
the x86 the sources are written for. -/
def le32 (v : Nat) : List Nat :=
  [v % 256, v / 256 % 256, v / 65536 % 256, v / 16777216 % 256]

/-- The byte a `uint8_t` flag holds. -/
def flagByte (b : Bool) : Nat := if b = true then 1 else 0

/-- The text `%s` prints from the bytes at a pointer: the bytes before the
first zero byte; `none` when the bytes hold no zero byte, the text then
running on past them. -/
def cString (bytes : List Nat) : Option (List Nat) :=
  if bytes.contains 0 then some (bytes.takeWhile (fun b => b != 0)) else none

/-- The bytes of a block from its field `name` to its end, in the order of
the declaration (lines 49-55): the 20 bytes of `name`, the four `uint8_t`
fields, `mem_marker` and `next`.  They follow one another without padding,
`name` starting at a multiple of 4.  `next` is the address of the following
list element, 0 for the last one. -/
def bytesFromName (c : XTask_CtxTypeDef) (next : Nat) : List Nat :=
  c.name.map (fun ch => ch % 256) ++
    [flagByte c.yielding, flagByte c.running, flagByte c.pendingEvent, c.stk_color % 256] ++
    le32 c.mem_marker ++ le32 next

/-- The values of one row that line 246 prints: the text of the name, the
state, the stack size, the stack usage, the hours, minutes and seconds of
`timeBuf`, and the peak.  The name is printed with `%s` from `ctx->name`: a
field that holds no terminator lets the text run on into the bytes that
follow it, and the text is `none` when it runs past the end of the block. -/
structure StatsRow where
  name : Option (List Nat)
  state : TaskLabel
  stackTotal : Nat
  usage : Int
  hours : Nat
  minutes : Nat
  seconds : Nat
  peek : Nat
  deriving DecidableEq, Repr

/-- Lines 225-246 of scheduler.c for the list element at address `p` with
block `c` and link `next`; `tick` is the value `HAL_GetTick` returns if
`HAL_TicksToTime` reads it.  The result is `none` when the call of
`xTaskGetStackUsage` at line 245 faults, in which case the row is not
printed. -/
def xTaskDumpStats_row (s : SchedState) (p : Nat) (c : XTask_CtxTypeDef) (next tick : Nat) :
    Option StatsRow :=
  match xTaskGetStackUsage s p with
  | none => none
  | some u =>
    some { name := cString (bytesFromName c next)
           state := tskState c
           stackTotal := c.stak_size
           usage := u
           hours := (HAL_TicksToTime c.ticks_accumulated tick).hours
           minutes := (HAL_TicksToTime c.ticks_accumulated tick).minutes
           seconds := (HAL_TicksToTime c.ticks_accumulated tick).seconds
           peek := c.ticks_peek }

/-- The link `next` of a list element whose successors are `rest`: the
address of the following element, `NULL` at the end of the list. -/
def nextLink (rest : List (Nat × XTask_CtxTypeDef)) : Nat :=
  match rest with
  | [] => 0
  | x :: _ => x.1

/-- The loop of lines 223-248 of scheduler.c from the element `i` of the list
on: the rows printed, in order, or `none` if a row faults.  `tick i` is the
tick at the row of element `i`. -/
def xTaskDumpStats_loop (s : SchedState) (tick : Nat → Nat) :
    List (Nat × XTask_CtxTypeDef) → Nat → Option (List StatsRow)
  | [], _ => some []
  | (p, c) :: rest, i =>
    match xTaskDumpStats_row s p c (nextLink rest) (tick i) with
    | none => none
    | some row =>
      match xTaskDumpStats_loop s tick rest (i + 1) with
      | none => none
      | some rows => some (row :: rows)

/-- The function `xTaskDumpStats` (scheduler.c, lines 204-260), as the rows
it prints between the header and the footer. -/
def xTaskDumpStats (s : SchedState) (tick : Nat → Nat) : Option (List StatsRow) :=
  xTaskDumpStats_loop s tick s.gXTsk.head 0

/-- The arguments of `n` calls of `xTaskCreate` with stack size 16, and
addresses for `malloc` to return that keep the blocks and stacks apart. -/
def manyArgs (n : Nat) : List CreateArgs :=
  (List.range n).map (fun i =>
    { name := [84], cb := 4096, stackSize := 16, ptr := 0,
      mctx := 4096 + 256 * i, mstk := 1048576 + 2048 * i })

/-- A state with two tasks, as two successful calls of `xTaskCreate` leave
it when `malloc` returns the addresses 1000, 8192, 2000 and 12288. -/
def twoTasks : SchedState :=
  { gXTsk :=
      { cur := 0
        head := [(1000, xTaskCreate_ctx [84, 49] 4096 16 0 8192 65),
                 (2000, xTaskCreate_ctx [84, 50] 4100 16 0 12288 66)]
        running := false }
    stk_color := 67 }

/-- The state `twoTasks` while the scheduler runs the first task with one
event bit pending: both tasks started, `cur` at the first block. -/
def twoTasksRunning : SchedState :=
  { gXTsk :=
      { cur := 1000
        head := [(1000, { xTaskCreate_ctx [84, 49] 4096 16 0 8192 65 with
                            running := true, events := 4 }),
                 (2000, { xTaskCreate_ctx [84, 50] 4100 16 0 12288 66 with
                            running := true, yielding := true })]
        running := true }
    stk_color := 67 }

/-- A state with one task, as the program leaves it after one successful call
of `xTaskCreate` when `malloc` returns the addresses 1000 and 8192. -/
def oneTask : SchedState :=
  { gXTsk :=
      { cur := 0
        head := [(1000, xTaskCreate_ctx [84, 49] 4096 16 0 8192 65)]
        running := false }
    stk_color := 66 }

/-- The one-task state after the task has overwritten the upper 11 bytes of
its 16-byte stack: the 5 bytes at `sp_bottom` still hold the fill byte. -/
def usedStackTask : SchedState :=
  { oneTask with gXTsk := { oneTask.gXTsk with
      head := [(1000, { xTaskCreate_ctx [84, 49] 4096 16 0 8192 65 with
                          stack := [65, 65, 65, 65, 65, 0, 0, 0, 0, 0, 0, 0, 0, 0, 0, 0] })] } }

/-- A state whose only task has the fill byte `0x80`, the value the static
`stk_color` holds at the 64th creation of a program, and an untouched
stack. -/
def highColorTask : SchedState :=
  { gXTsk :=
      { cur := 0
        head := [(1000, xTaskCreate_ctx [84, 49] 4096 16 0 8192 128)]
        running := false }
    stk_color := 129 }

/-! ## Theorems -/

/-- The decision of a visit, as a proposition on the block and the two ticks
it reads before the jump. -/
theorem schedVisit_snd (c : XTask_CtxTypeDef) (t1 t2 t3 : Nat) :
    (schedVisit c t1 t2 t3).2 = true ↔
      (c.running = true ∧ (c.yielding = true ∨ c.events ≠ 0 ∨ t1 ≥ c.event_expire_end)) ∧
        (c.delay_end = 0 ∨ c.delay_end ≤ t2) := by
  simp only [schedVisit]
  split_ifs with h1 h2
  · simp only [true_iff]; exact ⟨h1, h2⟩
  · simp only [Bool.false_eq_true, false_iff]; exact fun h => h2 h.2
  · simp only [Bool.false_eq_true, false_iff]; exact fun h => h1 h.1

theorem schedVisit_snd_dec (c : XTask_CtxTypeDef) (t1 t2 t3 : Nat) :
    (schedVisit c t1 t2 t3).2 =
      decide ((c.running = true ∧ (c.yielding = true ∨ c.events ≠ 0 ∨ t1 ≥ c.event_expire_end)) ∧
        (c.delay_end = 0 ∨ c.delay_end ≤ t2)) := by
  rw [Bool.eq_iff_iff, schedVisit_snd, decide_eq_true_iff]

/-- A visit that does not resume the task only zeroes `ticks_start`. -/
theorem schedVisit_fst_of_skip (c : XTask_CtxTypeDef) (t1 t2 t3 : Nat)
    (h : (schedVisit c t1 t2 t3).2 = false) :
    (schedVisit c t1 t2 t3).1 = { c with ticks_start := 0 } := by
  simp only [schedVisit] at h ⊢
  split_ifs at h ⊢ <;> simp_all

/-- A visit that resumes the task clears `delay_end` and `yielding` and
stamps `ticks_start`. -/
theorem schedVisit_fst_of_resume (c : XTask_CtxTypeDef) (t1 t2 t3 : Nat)
    (h : (schedVisit c t1 t2 t3).2 = true) :
    (schedVisit c t1 t2 t3).1 =
      { c with delay_end := 0, yielding := false, ticks_start := t3 } := by
  simp only [schedVisit] at h ⊢
  split_ifs at h ⊢
  simp_all

/-- The statistics step touches the two statistics fields only. -/
theorem schedCollect_flags (c : XTask_CtxTypeDef) (t4 : Nat) :
    (schedCollect c t4).running = c.running ∧ (schedCollect c t4).yielding = c.yielding ∧
    (schedCollect c t4).delay_end = c.delay_end ∧
    (schedCollect c t4).pendingEvent = c.pendingEvent ∧
    (schedCollect c t4).mem_marker = c.mem_marker ∧
    (schedCollect c t4).events = c.events ∧
    (schedCollect c t4).event_expire_end = c.event_expire_end := by
  simp only [schedCollect]
  split_ifs <;> simp

/-- With `ticks_start` zero nothing is collected. -/
theorem schedCollect_of_zero (c : XTask_CtxTypeDef) (t4 : Nat) (h : c.ticks_start = 0) :
    schedCollect c t4 = c := by
  simp [schedCollect, h]

theorem afterJump_flags (ph : TaskPhase) (c : XTask_CtxTypeDef) (t4 : Nat) :
    (afterJump ph c t4).running = c.running ∧ (afterJump ph c t4).yielding = c.yielding ∧
    (afterJump ph c t4).delay_end = c.delay_end ∧
    (afterJump ph c t4).pendingEvent = c.pendingEvent ∧
    (afterJump ph c t4).mem_marker = c.mem_marker ∧
    (afterJump ph c t4).events = c.events ∧
    (afterJump ph c t4).event_expire_end = c.event_expire_end := by
  simp only [afterJump]
  split_ifs
  · exact schedCollect_flags c t4
  · simp

theorem taskYIELD_ctx_snd (c : XTask_CtxTypeDef) : (taskYIELD_ctx c).2 = c.running := by
  simp only [taskYIELD_ctx]
  split_ifs with h
  · exact h.symm
  · simpa using h

theorem vTaskDelay_ctx_snd (c : XTask_CtxTypeDef) (tick delay : Nat) :
    (vTaskDelay_ctx c tick delay).2 = c.running := by
  simp only [vTaskDelay_ctx]
  split_ifs with h
  · exact h.symm
  · simpa using h
  · simpa using h

theorem xTaskNotifyWait_ctx_snd (c : XTask_CtxTypeDef) (tick w : Nat) :
    (xTaskNotifyWait_ctx c tick w).2 =
      if c.running = true then (if c.events = 0 then none else some c.events) else some 0 := by
  simp only [xTaskNotifyWait_ctx, xTaskNotifyWait_resume]
  split_ifs <;> rfl

/-- Every step of a task keeps the phase invariant. -/
theorem taskStep_inv (s s1 : TaskState) (e : TaskEvent) (hinv : TaskInv s)
    (hstep : taskStep s e = some s1) : TaskInv s1 := by
  obtain ⟨c, ph, st⟩ := s
  obtain ⟨hm, hph⟩ := hinv
  cases e <;> cases ph <;> simp only [taskStep, reduceCtorEq, false_and, true_and, or_self,
      or_true, true_or, or_false, false_or, if_true, if_false, taskYIELD_ctx_snd,
      vTaskDelay_ctx_snd, xTaskNotifyWait_ctx_snd, schedVisit_snd_dec] at hstep hph
  all_goals (try split at hstep)
  all_goals (first | (cases hstep; done) | skip)
  all_goals (try (cases hstep))
  all_goals simp only [] at hm
  all_goals
    simp only [TaskInv, afterJump_flags, schedCollect_flags, taskYIELD_ctx, vTaskDelay_ctx,
      xTaskNotifyWait_ctx, xTaskNotifyWait_resume, xTaskNotify_ctx, schedVisit]
  all_goals (try split_ifs)
  all_goals (try simp_all)

theorem runTask_inv (evs : List TaskEvent) (s s1 : TaskState) (hinv : TaskInv s)
    (hrun : runTask s evs = some s1) : TaskInv s1 := by
  induction evs generalizing s with
  | nil =>
    simp only [runTask, Option.some.injEq] at hrun
    exact hrun ▸ hinv
  | cons e es ih =>
    simp only [runTask] at hrun
    cases hstep : taskStep s e with
    | none => simp [hstep] at hrun
    | some s2 =>
      rw [hstep] at hrun
      exact ih s2 (taskStep_inv s s2 e hinv hstep) hrun

theorem fresh_inv (name : List Nat) (cb stackSize ptr stk color : Nat) :
    TaskInv (TaskState.fresh name cb stackSize ptr stk color) := by
  simp [TaskInv, TaskState.fresh, xTaskCreate_ctx]

/-- Every reachable state of a task satisfies the phase invariant. -/
theorem reachable_inv (s : TaskState) (h : Reachable s) : TaskInv s := by
  obtain ⟨name, cb, stackSize, ptr, stk, color, evs, hrun⟩ := h
  exact runTask_inv evs _ s (fresh_inv name cb stackSize ptr stk color) hrun

/-- C1: one visit of the main loop resumes the task exactly when `running`
holds, one of `yielding`, `events != 0`, `now >= event_expire_end` holds, and
it is not the case that `delay_end != 0` and `delay_end > now`; no task is
resumed at a visit where `delay_end > now`. -/
theorem schedVisit_resumes_iff (c : XTask_CtxTypeDef) (now t3 : Nat) :
    ((schedVisit c now now t3).2 = true ↔
      (c.running = true ∧
        (c.yielding = true ∨ c.events ≠ 0 ∨ now ≥ c.event_expire_end) ∧
        ¬ (c.delay_end ≠ 0 ∧ c.delay_end > now))) ∧
    (c.delay_end > now → (schedVisit c now now t3).2 = false) := by
  have key : (c.delay_end = 0 ∨ c.delay_end ≤ now) ↔ ¬ (c.delay_end ≠ 0 ∧ c.delay_end > now) := by
    constructor
    · rintro (h | h) ⟨h0, hgt⟩
      · exact h0 h
      · exact absurd hgt (not_lt.mpr h)
    · intro h
      by_cases h0 : c.delay_end = 0
      · exact Or.inl h0
      · exact Or.inr (not_lt.mp fun hgt => h ⟨h0, hgt⟩)
  constructor
  · rw [schedVisit_snd, key, and_assoc]
  · intro hgt
    rw [← Bool.not_eq_true, schedVisit_snd, key]
    exact fun h => h.2 ⟨by omega, hgt⟩

/-- Witness for C1: a running block in a delay that ends at tick 50, visited
at tick 20. -/
theorem schedVisit_resumes_iff_witness :
    ((schedVisit { (TaskState.fresh [84] 4096 16 0 8192 65).ctx with
          running := true, yielding := true, delay_end := 50 } 20 20 20).2 = true ↔
      (true = true ∧ (true = true ∨ (0 : Nat) ≠ 0 ∨ 20 ≥ HAL_XTASK_MAX_TIME) ∧
        ¬ ((50 : Nat) ≠ 0 ∧ 50 > 20))) ∧
    ((50 : Nat) > 20 →
      (schedVisit { (TaskState.fresh [84] 4096 16 0 8192 65).ctx with
          running := true, yielding := true, delay_end := 50 } 20 20 20).2 = false) :=
  schedVisit_resumes_iff
    { (TaskState.fresh [84] 4096 16 0 8192 65).ctx with
      running := true, yielding := true, delay_end := 50 } 20 20

/-- A task suspended in `vTaskDelay` with a deadline `D > 0` stays suspended,
its deadline untouched, through notifications and through visits whose tick
read at line 536 is below `D`. -/
theorem stays_inDelay (evs : List TaskEvent) (s : TaskState) (D : Nat)
    (hph : s.phase = TaskPhase.inDelay) (hD : s.ctx.delay_end = D) (hpos : 0 < D)
    (hev : ∀ e ∈ evs, earlyEvent D e) :
    ∃ s1, runTask s evs = some s1 ∧ s1.phase = TaskPhase.inDelay ∧ s1.ctx.delay_end = D := by
  induction evs generalizing s with
  | nil => exact ⟨s, rfl, hph, hD⟩
  | cons e es ih =>
    have he := hev e (List.mem_cons_self e es)
    have hes : ∀ e1 ∈ es, earlyEvent D e1 := fun e1 h1 => hev e1 (List.mem_cons_of_mem e h1)
    obtain ⟨c, ph, st⟩ := s
    simp only at hph hD
    subst hph
    cases e with
    | visit t1 t2 t3 t4 =>
      simp only [earlyEvent] at he
      have hskip : (schedVisit c t1 t2 t3).2 = false := by
        rw [← Bool.not_eq_true, schedVisit_snd]
        rintro ⟨-, h0 | hle⟩ <;> omega
      have hstep : taskStep ⟨c, TaskPhase.inDelay, st⟩ (TaskEvent.visit t1 t2 t3 t4) =
          some ⟨schedCollect (schedVisit c t1 t2 t3).1 t4, TaskPhase.inDelay, st⟩ := by
        simp [taskStep, hskip]
      simp only [runTask, hstep, Option.some_bind]
      apply ih _ rfl _ hes
      simp only [(schedCollect_flags _ t4).2.2.1, schedVisit_fst_of_skip c t1 t2 t3 hskip]
      exact hD
    | notify ev =>
      have hstep : taskStep ⟨c, TaskPhase.inDelay, st⟩ (TaskEvent.notify ev) =
          some ⟨xTaskNotify_ctx c ev, TaskPhase.inDelay, st⟩ := by
        simp [taskStep]
      simp only [runTask, hstep, Option.some_bind]
      apply ih _ rfl _ hes
      simp only [xTaskNotify_ctx]
      split_ifs <;> exact hD
    | start => simp [earlyEvent] at he
    | callYield _ => simp [earlyEvent] at he
    | callDelay _ _ _ => simp [earlyEvent] at he
    | callWait _ _ _ => simp [earlyEvent] at he

/-- C2, as amended: when an executing task calls `vTaskDelay(d)` with `d > 0`
at tick `t0` and `t0 + d` does not wrap (`t0 + d < 2 ^ 32`), the call suspends
the task with `delay_end = t0 + d`, and after any sequence of notifications
and of main-loop visits whose delay check reads a tick below `t0 + d` the
task is still suspended in that call: it never returns before `t0 + d`. -/
theorem vTaskDelay_holds_until_deadline (s : TaskState) (t0 d t4 : Nat) (evs : List TaskEvent)
    (hreach : Reachable s)
    (hph : s.phase = TaskPhase.entered ∨ s.phase = TaskPhase.resumed)
    (hd : 0 < d) (hsum : t0 + d < U32)
    (hev : ∀ e ∈ evs, earlyEvent (t0 + d) e) :
    ∃ s1, runTask s (TaskEvent.callDelay t0 d t4 :: evs) = some s1 ∧
      s1.phase = TaskPhase.inDelay ∧ s1.ctx.delay_end = t0 + d := by
  have hinv := reachable_inv s hreach
  obtain ⟨c, ph, st⟩ := s
  simp only at hph
  have hrun : c.running = true := by
    rcases hph with h | h <;> subst h <;> exact hinv.2.1
  have hstep : taskStep ⟨c, ph, st⟩ (TaskEvent.callDelay t0 d t4) =
      some ⟨afterJump ph (vTaskDelay_ctx c t0 d).1 t4, TaskPhase.inDelay, st⟩ := by
    simp [taskStep, hph, vTaskDelay_ctx_snd, hrun]
  simp only [runTask, hstep, Option.some_bind]
  apply stays_inDelay evs _ (t0 + d) rfl _ (by omega) hev
  simp only [(afterJump_flags ph _ t4).2.2.1, vTaskDelay_ctx, hrun, if_true, hd]
  exact Nat.mod_eq_of_lt hsum

/-- Witness for C2: a task in its first run segment calls `vTaskDelay(2000)`
at tick 100, is notified and is visited at ticks 150 and 2099. -/
theorem vTaskDelay_holds_until_deadline_witness :
    ∃ s1, runTask
        { ctx := { (TaskState.fresh [84] 4096 16 0 8192 65).ctx with running := true }
          phase := TaskPhase.entered
          stored := none }
        (TaskEvent.callDelay 100 2000 100 ::
          [TaskEvent.visit 150 150 150 150, TaskEvent.notify 4,
           TaskEvent.visit 2099 2099 2099 2099]) = some s1 ∧
      s1.phase = TaskPhase.inDelay ∧ s1.ctx.delay_end = 100 + 2000 :=
  vTaskDelay_holds_until_deadline
    { ctx := { (TaskState.fresh [84] 4096 16 0 8192 65).ctx with running := true }
      phase := TaskPhase.entered
      stored := none }
    100 2000 100
    [TaskEvent.visit 150 150 150 150, TaskEvent.notify 4, TaskEvent.visit 2099 2099 2099 2099]
    ⟨[84], 4096, 16, 0, 8192, 65, [TaskEvent.start], rfl⟩
    (Or.inl rfl) (by decide) (by decide)
    (by simp [earlyEvent])

/-- Counterexample to C2 as stated: a task that calls `vTaskDelay(1)` at tick
`t0 = 0xFFFFFFFF` stores `delay_end = 0`, and the visit at tick
`now = 0xFFFFFFFF`, for which `t0 <= now < t0 + 1`, resumes it. -/
theorem vTaskDelay_wrap_resumes_early :
    (0 : Nat) < 1 ∧ (4294967295 : Nat) < U32 ∧ (4294967295 : Nat) ≤ 4294967295 ∧
    (4294967295 : Nat) < 4294967295 + 1 ∧
    (runTask (TaskState.fresh [84] 4096 16 0 8192 65)
        [TaskEvent.start, TaskEvent.callDelay 4294967295 1 4294967295]).map
      (fun s => (s.phase, s.ctx.delay_end)) = some (TaskPhase.inDelay, 0) ∧
    (runTask (TaskState.fresh [84] 4096 16 0 8192 65)
        [TaskEvent.start, TaskEvent.callDelay 4294967295 1 4294967295,
         TaskEvent.visit 4294967295 4294967295 4294967295 4294967295]).map
      (fun s => s.phase) = some TaskPhase.resumed := by
  refine ⟨by decide, by decide, by decide, by decide, by decide, by decide⟩

/-- A task suspended in `xTaskNotifyWait` with no event pending stays
suspended, its block unchanged but for `ticks_start`, through notifications
with an empty mask and visits whose first tick read is below its
`event_expire_end`. -/
theorem stays_inWait (evs : List TaskEvent) (s : TaskState) (B : Nat)
    (hph : s.phase = TaskPhase.inWait) (hy : s.ctx.yielding = false)
    (he0 : s.ctx.events = 0) (hB : B ≤ s.ctx.event_expire_end)
    (hev : ∀ e ∈ evs, quietEvent B e) :
    ∃ s1, runTask s evs = some s1 ∧ s1.phase = TaskPhase.inWait ∧ s1.stored = s.stored ∧
      s1.ctx = { s.ctx with ticks_start := s1.ctx.ticks_start } := by
  induction evs generalizing s with
  | nil => exact ⟨s, rfl, hph, rfl, rfl⟩
  | cons e es ih =>
    have he := hev e (List.mem_cons_self e es)
    have hes : ∀ e1 ∈ es, quietEvent B e1 := fun e1 h1 => hev e1 (List.mem_cons_of_mem e h1)
    obtain ⟨c, ph, st⟩ := s
    simp only at hph hy he0 hB
    subst hph
    cases e with
    | visit t1 t2 t3 t4 =>
      simp only [quietEvent] at he
      have hskip : (schedVisit c t1 t2 t3).2 = false := by
        rw [← Bool.not_eq_true, schedVisit_snd]
        rintro ⟨⟨-, h1 | h1 | h1⟩, -⟩
        · rw [hy] at h1; exact Bool.false_ne_true h1
        · exact h1 he0
        · omega
      have hfst := schedVisit_fst_of_skip c t1 t2 t3 hskip
      have hstep : taskStep ⟨c, TaskPhase.inWait, st⟩ (TaskEvent.visit t1 t2 t3 t4) =
          some ⟨{ c with ticks_start := 0 }, TaskPhase.inWait, st⟩ := by
        simp [taskStep, hskip, hfst, schedCollect_of_zero]
      simp only [runTask, hstep, Option.some_bind]
      obtain ⟨s1, h1, h2, h3, h4⟩ := ih ⟨{ c with ticks_start := 0 }, TaskPhase.inWait, st⟩
        rfl hy he0 hB hes
      exact ⟨s1, h1, h2, h3, h4⟩
    | notify ev =>
      simp only [quietEvent] at he
      subst he
      have hc : xTaskNotify_ctx c 0 = c := by
        simp only [xTaskNotify_ctx, HAL_SET_BIT, Nat.or_zero]
        split_ifs <;> rfl
      have hstep : taskStep ⟨c, TaskPhase.inWait, st⟩ (TaskEvent.notify 0) =
          some ⟨c, TaskPhase.inWait, st⟩ := by
        simp [taskStep, hc]
      simp only [runTask, hstep, Option.some_bind]
      exact ih ⟨c, TaskPhase.inWait, st⟩ rfl hy he0 hB hes
    | start => simp [quietEvent] at he
    | callYield _ => simp [quietEvent] at he
    | callDelay _ _ _ => simp [quietEvent] at he
    | callWait _ _ _ => simp [quietEvent] at he

/-- The slow path of `xTaskNotifyWait`, as a step of an executing task with
no event pending. -/
theorem callWait_suspends (s : TaskState) (t0 w t4 : Nat)
    (hinv : TaskInv s)
    (hph : s.phase = TaskPhase.entered ∨ s.phase = TaskPhase.resumed)
    (he0 : s.ctx.events = 0) :
    taskStep s (TaskEvent.callWait t0 w t4) =
      some { ctx := afterJump s.phase (xTaskNotifyWait_ctx s.ctx t0 w).1 t4
             phase := TaskPhase.inWait
             stored := s.stored } ∧
    s.ctx.running = true ∧ s.ctx.yielding = false ∧ s.ctx.delay_end = 0 := by
  obtain ⟨c, ph, st⟩ := s
  simp only at hph he0
  have hflags : c.running = true ∧ c.yielding = false ∧ c.delay_end = 0 := by
    rcases hph with h | h <;> subst h <;> exact ⟨hinv.2.1, hinv.2.2.1, hinv.2.2.2.1⟩
  refine ⟨?_, hflags⟩
  simp [taskStep, hph, xTaskNotifyWait_ctx_snd, hflags.1, he0]

/-- A visit that resumes a task suspended in `xTaskNotifyWait` completes the
call: it returns the `events` the block held at the visit and clears them. -/
theorem visit_inWait_resumes (s : TaskState) (t1 t2 t3 t4 : Nat)
    (hph : s.phase = TaskPhase.inWait) (hres : (schedVisit s.ctx t1 t2 t3).2 = true) :
    taskStep s (TaskEvent.visit t1 t2 t3 t4) =
      some { ctx := { s.ctx with delay_end := 0, yielding := false, ticks_start := t3,
                                 pendingEvent := false, events := 0 }
             phase := TaskPhase.resumed
             stored := some s.ctx.events } := by
  obtain ⟨c, ph, st⟩ := s
  simp only at hph hres
  subst hph
  have hfst := schedVisit_fst_of_resume c t1 t2 t3 hres
  simp [taskStep, hres, hfst, xTaskNotifyWait_resume]

/-- The block an executing task leaves behind when `xTaskNotifyWait` suspends
it: the fields the scheduler predicate reads. -/
theorem callWait_block (ph : TaskPhase) (c : XTask_CtxTypeDef) (t0 w t4 : Nat)
    (hrun : c.running = true) (he0 : c.events = 0) :
    (afterJump ph (xTaskNotifyWait_ctx c t0 w).1 t4).running = true ∧
    (afterJump ph (xTaskNotifyWait_ctx c t0 w).1 t4).yielding = c.yielding ∧
    (afterJump ph (xTaskNotifyWait_ctx c t0 w).1 t4).delay_end = c.delay_end ∧
    (afterJump ph (xTaskNotifyWait_ctx c t0 w).1 t4).events = 0 ∧
    (afterJump ph (xTaskNotifyWait_ctx c t0 w).1 t4).event_expire_end =
      if w > 0 ∧ w ≠ HAL_XTASK_MAX_TIME then (t0 + w) % U32 else c.event_expire_end := by
  simp only [afterJump_flags, xTaskNotifyWait_ctx, hrun, he0, if_true]
  split_ifs <;> simp [hrun, he0]

/-- C3, as amended: for a timeout `t` that is neither 0 nor `0xFFFFFFFF`, when
an executing task with no event pending calls `xTaskNotifyWait(t)` at tick
`t0`, `t0 + t` does not wrap (`t0 + t < 2 ^ 32`) and nothing notifies the
task, every visit whose tick is below `t0 + t` leaves it suspended, and a
visit at a tick from `t0 + t` on resumes it with the call returning 0. -/
theorem xTaskNotifyWait_timeout (s : TaskState) (t0 t t4 : Nat) (evs : List TaskEvent)
    (hreach : Reachable s)
    (hph : s.phase = TaskPhase.entered ∨ s.phase = TaskPhase.resumed)
    (he0 : s.ctx.events = 0) (ht0 : t ≠ 0) (htmax : t ≠ HAL_XTASK_MAX_TIME)
    (hsum : t0 + t < U32)
    (hev : ∀ e ∈ evs, quietEvent (t0 + t) e) :
    ∃ s1, runTask s (TaskEvent.callWait t0 t t4 :: evs) = some s1 ∧
      s1.phase = TaskPhase.inWait ∧
      ∀ t1 t2 t3 t5, t0 + t ≤ t1 →
        ∃ s2, taskStep s1 (TaskEvent.visit t1 t2 t3 t5) = some s2 ∧
          s2.phase = TaskPhase.resumed ∧ s2.stored = some 0 := by
  have hinv := reachable_inv s hreach
  obtain ⟨hstep, hrun, hy, hdl⟩ := callWait_suspends s t0 t t4 hinv hph he0
  obtain ⟨b1, b2, b3, b4, b5⟩ := callWait_block s.phase s.ctx t0 t t4 hrun he0
  have hw : t > 0 ∧ t ≠ HAL_XTASK_MAX_TIME := ⟨Nat.pos_of_ne_zero ht0, htmax⟩
  rw [if_pos hw, Nat.mod_eq_of_lt hsum] at b5
  simp only [runTask, hstep, Option.some_bind]
  obtain ⟨s1, h1, h2, -, h4⟩ := stays_inWait evs
    { ctx := afterJump s.phase (xTaskNotifyWait_ctx s.ctx t0 t).1 t4
      phase := TaskPhase.inWait
      stored := s.stored } (t0 + t) rfl (b2.trans hy) b4 (le_of_eq b5.symm) hev
  refine ⟨s1, h1, h2, ?_⟩
  intro t1 t2 t3 t5 hle
  have e1 : s1.ctx.running = true := by rw [h4]; exact b1
  have e2 : s1.ctx.delay_end = 0 := by rw [h4]; exact b3.trans hdl
  have e3 : s1.ctx.event_expire_end = t0 + t := by rw [h4]; exact b5
  have e4 : s1.ctx.events = 0 := by rw [h4]; exact b4
  have hres : (schedVisit s1.ctx t1 t2 t3).2 = true := by
    rw [schedVisit_snd]
    exact ⟨⟨e1, Or.inr (Or.inr (by omega))⟩, Or.inl e2⟩
  refine ⟨_, visit_inWait_resumes s1 t1 t2 t3 t5 h2 hres, rfl, ?_⟩
  simp only [e4]

/-- Witness for C3: a task in its first run segment calls
`xTaskNotifyWait(5)` at tick 10 and is visited at ticks 12 and 14. -/
theorem xTaskNotifyWait_timeout_witness :
    ∃ s1, runTask
        { ctx := { (TaskState.fresh [84] 4096 16 0 8192 65).ctx with running := true }
          phase := TaskPhase.entered
          stored := none }
        (TaskEvent.callWait 10 5 10 ::
          [TaskEvent.visit 12 12 12 12, TaskEvent.visit 14 14 14 14]) = some s1 ∧
      s1.phase = TaskPhase.inWait ∧
      ∀ t1 t2 t3 t5, 10 + 5 ≤ t1 →
        ∃ s2, taskStep s1 (TaskEvent.visit t1 t2 t3 t5) = some s2 ∧
          s2.phase = TaskPhase.resumed ∧ s2.stored = some 0 :=
  xTaskNotifyWait_timeout
    { ctx := { (TaskState.fresh [84] 4096 16 0 8192 65).ctx with running := true }
      phase := TaskPhase.entered
      stored := none }
    10 5 10 [TaskEvent.visit 12 12 12 12, TaskEvent.visit 14 14 14 14]
    ⟨[84], 4096, 16, 0, 8192, 65, [TaskEvent.start], rfl⟩
    (Or.inl rfl) rfl (by decide) (by decide) (by decide)
    (by simp [quietEvent])

/-- Counterexample to C3 as stated: a task with no event pending that calls
`xTaskNotifyWait(1)` at tick `t0 = 0xFFFFFFFF` stores `event_expire_end = 0`,
and the visit at tick `now = 0xFFFFFFFF`, for which `now < t0 + 1`, resumes it
though nothing notified it. -/
theorem xTaskNotifyWait_wrap_resumes_early :
    (1 : Nat) ≠ 0 ∧ (1 : Nat) ≠ HAL_XTASK_MAX_TIME ∧ (4294967295 : Nat) < U32 ∧
    (4294967295 : Nat) < 4294967295 + 1 ∧
    (runTask (TaskState.fresh [84] 4096 16 0 8192 65)
        [TaskEvent.start, TaskEvent.callWait 4294967295 1 4294967295]).map
      (fun s => (s.phase, s.ctx.events, s.ctx.event_expire_end)) =
        some (TaskPhase.inWait, 0, 0) ∧
    (runTask (TaskState.fresh [84] 4096 16 0 8192 65)
        [TaskEvent.start, TaskEvent.callWait 4294967295 1 4294967295,
         TaskEvent.visit 4294967295 4294967295 4294967295 4294967295]).map
      (fun s => s.phase) = some TaskPhase.resumed := by
  refine ⟨by decide, by decide, by decide, by decide, by decide, by decide⟩

/-- The step of a notification. -/
theorem notify_step (s : TaskState) (m : Nat) (hm : s.ctx.mem_marker = HAL_XTASK_MEM_MARKER) :
    taskStep s (TaskEvent.notify m) =
      some { s with ctx := { s.ctx with events := s.ctx.events ||| m } } := by
  simp [taskStep, xTaskNotify_ctx, hm, HAL_SET_BIT]

/-- An executing task with no event pending and `event_expire_end` at the
sentinel that calls `xTaskNotifyWait(0xFFFFFFFF)` is suspended and stays so,
with no event pending and the sentinel in place, through notifications with
an empty mask and visits at ticks below `0xFFFFFFFF`. -/
theorem wait_max_stays (s : TaskState) (t0 t4 : Nat) (evs : List TaskEvent)
    (hinv : TaskInv s)
    (hph : s.phase = TaskPhase.entered ∨ s.phase = TaskPhase.resumed)
    (he0 : s.ctx.events = 0) (hdead : s.ctx.event_expire_end = HAL_XTASK_MAX_TIME)
    (hev : ∀ e ∈ evs, quietEvent HAL_XTASK_MAX_TIME e) :
    ∃ s1, runTask s (TaskEvent.callWait t0 HAL_XTASK_MAX_TIME t4 :: evs) = some s1 ∧
      s1.phase = TaskPhase.inWait ∧ s1.ctx.events = 0 ∧
      s1.ctx.event_expire_end = HAL_XTASK_MAX_TIME ∧ s1.stored = s.stored := by
  obtain ⟨hstep, hrun, hy, -⟩ := callWait_suspends s t0 HAL_XTASK_MAX_TIME t4 hinv hph he0
  obtain ⟨-, b2, -, b4, b5⟩ :=
    callWait_block s.phase s.ctx t0 HAL_XTASK_MAX_TIME t4 hrun he0
  have hw : ¬ (HAL_XTASK_MAX_TIME > 0 ∧ HAL_XTASK_MAX_TIME ≠ HAL_XTASK_MAX_TIME) :=
    fun h => h.2 rfl
  rw [if_neg hw, hdead] at b5
  simp only [runTask, hstep, Option.some_bind]
  obtain ⟨s1, h1, h2, h3, h4⟩ := stays_inWait evs
    { ctx := afterJump s.phase (xTaskNotifyWait_ctx s.ctx t0 HAL_XTASK_MAX_TIME).1 t4
      phase := TaskPhase.inWait
      stored := s.stored } HAL_XTASK_MAX_TIME rfl (b2.trans hy) b4 (le_of_eq b5.symm) hev
  refine ⟨s1, h1, h2, ?_, ?_, h3⟩
  · rw [h4]; exact b4
  · rw [h4]; exact b5

/-- C4, as amended: when an executing task A whose `event_expire_end` holds
the sentinel `0xFFFFFFFF` calls `xTaskNotifyWait(0xFFFFFFFF)` with no event
pending, it stays suspended through every visit at a tick below `0xFFFFFFFF`;
once `xTaskNotify(A, m)` with `m != 0` has run, the next visit resumes A at
every tick, that call of A returns exactly `m`, and `events` is 0 right after
the return. -/
theorem notify_wait_round_trip (s : TaskState) (t0 t4 m : Nat) (evs : List TaskEvent)
    (hreach : Reachable s)
    (hph : s.phase = TaskPhase.entered ∨ s.phase = TaskPhase.resumed)
    (he0 : s.ctx.events = 0) (hdead : s.ctx.event_expire_end = HAL_XTASK_MAX_TIME)
    (hm : m ≠ 0)
    (hev : ∀ e ∈ evs, quietEvent HAL_XTASK_MAX_TIME e) :
    ∃ s1, runTask s (TaskEvent.callWait t0 HAL_XTASK_MAX_TIME t4 :: evs) = some s1 ∧
      s1.phase = TaskPhase.inWait ∧
      ∀ t1 t2 t3 t5,
        ∃ s2, runTask s1 [TaskEvent.notify m, TaskEvent.visit t1 t2 t3 t5] = some s2 ∧
          s2.phase = TaskPhase.resumed ∧ s2.stored = some m ∧ s2.ctx.events = 0 := by
  have hinv := reachable_inv s hreach
  obtain ⟨s1, h1, h2, h3, -, -⟩ := wait_max_stays s t0 t4 evs hinv hph he0 hdead hev
  have hinv1 := runTask_inv _ s s1 hinv h1
  refine ⟨s1, h1, h2, ?_⟩
  intro t1 t2 t3 t5
  obtain ⟨hmark, hflags⟩ := hinv1
  rw [h2] at hflags
  obtain ⟨hrun, -, hdl, -⟩ := hflags
  have hns := notify_step s1 m hmark
  rw [h3, Nat.zero_or] at hns
  have hres : (schedVisit { s1.ctx with events := m } t1 t2 t3).2 = true := by
    rw [schedVisit_snd]
    exact ⟨⟨hrun, Or.inr (Or.inl hm)⟩, Or.inl hdl⟩
  have hvs := visit_inWait_resumes { s1 with ctx := { s1.ctx with events := m } }
    t1 t2 t3 t5 h2 hres
  refine ⟨{ ctx := { s1.ctx with delay_end := 0, yielding := false, ticks_start := t3,
                                 pendingEvent := false, events := 0 }
            phase := TaskPhase.resumed
            stored := some m }, ?_, rfl, rfl, rfl⟩
  simp only [runTask, hns, Option.some_bind, hvs]

/-- Witness for C4: a task in its first run segment calls
`xTaskNotifyWait(0xFFFFFFFF)` at tick 10, is visited at ticks 12 and 14, and
is then notified with mask 4. -/
theorem notify_wait_round_trip_witness :
    ∃ s1, runTask
        { ctx := { (TaskState.fresh [84] 4096 16 0 8192 65).ctx with running := true }
          phase := TaskPhase.entered
          stored := none }
        (TaskEvent.callWait 10 HAL_XTASK_MAX_TIME 10 ::
          [TaskEvent.visit 12 12 12 12, TaskEvent.visit 14 14 14 14]) = some s1 ∧
      s1.phase = TaskPhase.inWait ∧
      ∀ t1 t2 t3 t5,
        ∃ s2, runTask s1 [TaskEvent.notify 4, TaskEvent.visit t1 t2 t3 t5] = some s2 ∧
          s2.phase = TaskPhase.resumed ∧ s2.stored = some 4 ∧ s2.ctx.events = 0 :=
  notify_wait_round_trip
    { ctx := { (TaskState.fresh [84] 4096 16 0 8192 65).ctx with running := true }
      phase := TaskPhase.entered
      stored := none }
    10 10 4 [TaskEvent.visit 12 12 12 12, TaskEvent.visit 14 14 14 14]
    ⟨[84], 4096, 16, 0, 8192, 65, [TaskEvent.start], rfl⟩
    (Or.inl rfl) rfl rfl (by decide)
    (by simp [quietEvent, HAL_XTASK_MAX_TIME])

/-- Counterexample to C4 as stated, on two runs of a task A created by
`xTaskCreate` and started by the bootstrap pass, each ending with the only
notification, `xTaskNotify(A, 4)`.  In the first A calls
`xTaskNotifyWait(0xFFFFFFFF)` at tick 10 and is visited at tick `0xFFFFFFFF`;
in the second A first lets `xTaskNotifyWait(5)` time out at tick 15, then
calls `xTaskNotifyWait(0xFFFFFFFF)` at tick 16 and is visited at tick 18.
In both the call made with `events == 0` has returned 0, not 4, before the
notification arrives. -/
theorem notify_wait_round_trip_fails :
    (4 : Nat) ≠ 0 ∧
    (runTask (TaskState.fresh [84] 4096 16 0 8192 65)
        [TaskEvent.start, TaskEvent.callWait 10 HAL_XTASK_MAX_TIME 10]).map
      (fun s => (s.phase, s.ctx.events)) = some (TaskPhase.inWait, 0) ∧
    (runTask (TaskState.fresh [84] 4096 16 0 8192 65)
        [TaskEvent.start, TaskEvent.callWait 10 HAL_XTASK_MAX_TIME 10,
         TaskEvent.visit 4294967295 4294967295 4294967295 4294967295,
         TaskEvent.notify 4]).map
      (fun s => (s.phase, s.stored)) = some (TaskPhase.resumed, some 0) ∧
    (runTask (TaskState.fresh [84] 4096 16 0 8192 65)
        [TaskEvent.start, TaskEvent.callWait 10 5 10, TaskEvent.visit 15 15 15 15,
         TaskEvent.callWait 16 HAL_XTASK_MAX_TIME 16]).map
      (fun s => (s.phase, s.ctx.events)) = some (TaskPhase.inWait, 0) ∧
    (runTask (TaskState.fresh [84] 4096 16 0 8192 65)
        [TaskEvent.start, TaskEvent.callWait 10 5 10, TaskEvent.visit 15 15 15 15,
         TaskEvent.callWait 16 HAL_XTASK_MAX_TIME 16, TaskEvent.visit 18 18 18 18,
         TaskEvent.notify 4]).map
      (fun s => (s.phase, s.stored)) = some (TaskPhase.resumed, some 0) := by
  refine ⟨by decide, by decide, by decide, by decide, by decide⟩

/-- C9, as amended: a task whose `event_expire_end` holds the sentinel
`0xFFFFFFFF` and that is suspended in `xTaskNotifyWait(0xFFFFFFFF)` with no
event pending is skipped by every visit at a tick below `0xFFFFFFFF`, and
keeps `events == 0` and the sentinel, until some `xTaskNotify` sets a bit. -/
theorem xTaskNotifyWait_max_waits (s : TaskState) (t0 t4 : Nat) (evs : List TaskEvent)
    (hreach : Reachable s)
    (hph : s.phase = TaskPhase.entered ∨ s.phase = TaskPhase.resumed)
    (he0 : s.ctx.events = 0) (hdead : s.ctx.event_expire_end = HAL_XTASK_MAX_TIME)
    (hev : ∀ e ∈ evs, quietEvent HAL_XTASK_MAX_TIME e) :
    ∃ s1, runTask s (TaskEvent.callWait t0 HAL_XTASK_MAX_TIME t4 :: evs) = some s1 ∧
      s1.phase = TaskPhase.inWait ∧ s1.ctx.events = 0 ∧
      s1.ctx.event_expire_end = HAL_XTASK_MAX_TIME ∧
      ∀ t1 t2 t3, t1 < HAL_XTASK_MAX_TIME → (schedVisit s1.ctx t1 t2 t3).2 = false := by
  have hinv := reachable_inv s hreach
  obtain ⟨s1, h1, h2, h3, h4, -⟩ := wait_max_stays s t0 t4 evs hinv hph he0 hdead hev
  have hinv1 := runTask_inv _ s s1 hinv h1
  refine ⟨s1, h1, h2, h3, h4, ?_⟩
  intro t1 t2 t3 hlt
  obtain ⟨-, hflags⟩ := hinv1
  rw [h2] at hflags
  rw [← Bool.not_eq_true, schedVisit_snd]
  rintro ⟨⟨-, hy | hne | hge⟩, -⟩
  · rw [hflags.2.1] at hy; exact Bool.false_ne_true hy
  · exact hne h3
  · rw [h4] at hge; omega

/-- Witness for C9: a task in its first run segment calls
`xTaskNotifyWait(0xFFFFFFFF)` at tick 10 and is visited at ticks 12 and
`0xFFFFFFFE`. -/
theorem xTaskNotifyWait_max_waits_witness :
    ∃ s1, runTask
        { ctx := { (TaskState.fresh [84] 4096 16 0 8192 65).ctx with running := true }
          phase := TaskPhase.entered
          stored := none }
        (TaskEvent.callWait 10 HAL_XTASK_MAX_TIME 10 ::
          [TaskEvent.visit 12 12 12 12,
           TaskEvent.visit 4294967294 4294967294 4294967294 4294967294]) = some s1 ∧
      s1.phase = TaskPhase.inWait ∧ s1.ctx.events = 0 ∧
      s1.ctx.event_expire_end = HAL_XTASK_MAX_TIME ∧
      ∀ t1 t2 t3, t1 < HAL_XTASK_MAX_TIME → (schedVisit s1.ctx t1 t2 t3).2 = false :=
  xTaskNotifyWait_max_waits
    { ctx := { (TaskState.fresh [84] 4096 16 0 8192 65).ctx with running := true }
      phase := TaskPhase.entered
      stored := none }
    10 10
    [TaskEvent.visit 12 12 12 12, TaskEvent.visit 4294967294 4294967294 4294967294 4294967294]
    ⟨[84], 4096, 16, 0, 8192, 65, [TaskEvent.start], rfl⟩
    (Or.inl rfl) rfl rfl
    (by simp [quietEvent, HAL_XTASK_MAX_TIME])

/-- Counterexample to C9 as stated, on two runs of a task created by
`xTaskCreate` and started by the bootstrap pass.  In the first the task calls
`xTaskNotifyWait(0xFFFFFFFF)` at tick 10 and the visit at tick `0xFFFFFFFF`
resumes it; in the second it first lets `xTaskNotifyWait(5)` time out at tick
15, calls `xTaskNotifyWait(0xFFFFFFFF)` at tick 16, and the visit at tick 18
resumes it.  In both the task is suspended with `events == 0` and no
`xTaskNotify` ran. -/
theorem xTaskNotifyWait_max_resumed :
    (runTask (TaskState.fresh [84] 4096 16 0 8192 65)
        [TaskEvent.start, TaskEvent.callWait 10 HAL_XTASK_MAX_TIME 10]).map
      (fun s => (s.phase, s.ctx.events)) = some (TaskPhase.inWait, 0) ∧
    (runTask (TaskState.fresh [84] 4096 16 0 8192 65)
        [TaskEvent.start, TaskEvent.callWait 10 HAL_XTASK_MAX_TIME 10,
         TaskEvent.visit 4294967295 4294967295 4294967295 4294967295]).map
      (fun s => s.phase) = some TaskPhase.resumed ∧
    (runTask (TaskState.fresh [84] 4096 16 0 8192 65)
        [TaskEvent.start, TaskEvent.callWait 10 5 10, TaskEvent.visit 15 15 15 15,
         TaskEvent.callWait 16 HAL_XTASK_MAX_TIME 16]).map
      (fun s => (s.phase, s.ctx.events, s.ctx.event_expire_end)) =
        some (TaskPhase.inWait, 0, 15) ∧
    (runTask (TaskState.fresh [84] 4096 16 0 8192 65)
        [TaskEvent.start, TaskEvent.callWait 10 5 10, TaskEvent.visit 15 15 15 15,
         TaskEvent.callWait 16 HAL_XTASK_MAX_TIME 16, TaskEvent.visit 18 18 18 18]).map
      (fun s => s.phase) = some TaskPhase.resumed := by
  refine ⟨by decide, by decide, by decide, by decide⟩

/-- C8, the code at the failing input: a task created by `xTaskCreate` and
started by the bootstrap pass calls `xTaskNotifyWait(5)` at tick 10.  Woken
by its timeout at tick 15, or by `xTaskNotify` with mask 1 and the visit at
tick 11, the call returns with `event_expire_end == 15`, which is not the
sentinel `0xFFFFFFFF`. -/
theorem xTaskNotifyWait_leaves_deadline :
    (runTask (TaskState.fresh [84] 4096 16 0 8192 65)
        [TaskEvent.start, TaskEvent.callWait 10 5 10, TaskEvent.visit 15 15 15 15]).map
      (fun s => (s.phase, s.stored, s.ctx.event_expire_end)) =
        some (TaskPhase.resumed, some 0, 15) ∧
    (runTask (TaskState.fresh [84] 4096 16 0 8192 65)
        [TaskEvent.start, TaskEvent.callWait 10 5 10, TaskEvent.notify 1,
         TaskEvent.visit 11 11 11 11]).map
      (fun s => (s.phase, s.stored, s.ctx.event_expire_end)) =
        some (TaskPhase.resumed, some 1, 15) ∧
    (15 : Nat) ≠ HAL_XTASK_MAX_TIME := by
  refine ⟨by decide, by decide, by decide⟩

/-! ### Stores through a handle -/

theorem ctxAt_ctxStore_self (l : List (Nat × XTask_CtxTypeDef)) (p : Nat)
    (c v : XTask_CtxTypeDef) (h : ctxAt l p = some c) : ctxAt (ctxStore l p v) p = some v := by
  induction l with
  | nil => simp [ctxAt] at h
  | cons x xs ih =>
    obtain ⟨a, c0⟩ := x
    by_cases hap : a = p
    · simp [ctxStore, ctxAt, hap]
    · simp only [ctxAt, hap, if_false] at h
      simp [ctxStore, ctxAt, hap, ih h]

theorem ctxAt_ctxStore_ne (l : List (Nat × XTask_CtxTypeDef)) (p q : Nat)
    (v : XTask_CtxTypeDef) (h : q ≠ p) : ctxAt (ctxStore l p v) q = ctxAt l q := by
  induction l with
  | nil => rfl
  | cons x xs ih =>
    obtain ⟨a, c0⟩ := x
    by_cases hap : a = p
    · have hpq : ¬ p = q := fun e => h e.symm
      subst hap
      simp only [ctxStore, ctxAt, if_true, hpq, if_false]
    · by_cases haq : a = q
      · subst haq
        simp only [ctxStore, hap, if_false, ctxAt, if_true]
      · simp only [ctxStore, hap, if_false, ctxAt, haq, ih]

theorem ctxStore_same (l : List (Nat × XTask_CtxTypeDef)) (p : Nat) (c : XTask_CtxTypeDef)
    (h : ctxAt l p = some c) : ctxStore l p c = l := by
  induction l with
  | nil => rfl
  | cons x xs ih =>
    obtain ⟨a, c0⟩ := x
    by_cases hap : a = p
    · simp only [ctxAt, hap, if_true, Option.some.injEq] at h
      simp [ctxStore, hap, h]
    · simp only [ctxAt, hap, if_false] at h
      simp [ctxStore, hap, ih h]

theorem ctxStore_ctxStore (l : List (Nat × XTask_CtxTypeDef)) (p : Nat)
    (v w : XTask_CtxTypeDef) : ctxStore (ctxStore l p v) p w = ctxStore l p w := by
  induction l with
  | nil => rfl
  | cons x xs ih =>
    obtain ⟨a, c0⟩ := x
    by_cases hap : a = p
    · simp [ctxStore, hap]
    · simp [ctxStore, hap, ih]

theorem ctxStore_addresses (l : List (Nat × XTask_CtxTypeDef)) (p : Nat)
    (v : XTask_CtxTypeDef) : (ctxStore l p v).map Prod.fst = l.map Prod.fst := by
  induction l with
  | nil => rfl
  | cons x xs ih =>
    obtain ⟨a, c0⟩ := x
    by_cases hap : a = p
    · simp [ctxStore, hap]
    · simp [ctxStore, hap, ih]

theorem ctxStore_other_position (l : List (Nat × XTask_CtxTypeDef)) (p : Nat)
    (v : XTask_CtxTypeDef) (i a : Nat) (c0 : XTask_CtxTypeDef)
    (h : l[i]? = some (a, c0)) (hne : a ≠ p) : (ctxStore l p v)[i]? = some (a, c0) := by
  induction l generalizing i with
  | nil => simp at h
  | cons x xs ih =>
    obtain ⟨b, c1⟩ := x
    cases i with
    | zero =>
      simp only [List.getElem?_cons_zero, Option.some.injEq, Prod.mk.injEq] at h
      obtain ⟨hb, hc⟩ := h
      subst hb hc
      simp [ctxStore, hne]
    | succ j =>
      simp only [List.getElem?_cons_succ] at h
      by_cases hbp : b = p
      · simp [ctxStore, hbp, h]
      · simp [ctxStore, hbp, ih j h]

/-- C6: with a handle that is not null, not `INVALID_HANDLE`, and addresses a
block whose `mem_marker` is the magic constant, `xTaskNotify(handle, bits)`
replaces the `events` of that block by `events | bits`, keeps every other
field of it, every block at another address, the order of the list, `cur`,
`running` and the colour seed; with a null handle, `INVALID_HANDLE`, or a
block whose marker differs, the whole state is unchanged. -/
theorem xTaskNotify_frame (s : SchedState) (handle bits : Nat) :
    (∀ c, handle ≠ 0 → handle ≠ HAL_XTASK_INVALID_HANDLE →
        ctxAt s.gXTsk.head handle = some c → c.mem_marker = HAL_XTASK_MEM_MARKER →
      ctxAt (xTaskNotify s handle bits).gXTsk.head handle =
          some { c with events := c.events ||| bits } ∧
      (∀ q, q ≠ handle →
        ctxAt (xTaskNotify s handle bits).gXTsk.head q = ctxAt s.gXTsk.head q) ∧
      (∀ (i a : Nat) (c0 : XTask_CtxTypeDef), s.gXTsk.head[i]? = some (a, c0) → a ≠ handle →
        (xTaskNotify s handle bits).gXTsk.head[i]? = some (a, c0)) ∧
      (xTaskNotify s handle bits).gXTsk.head.map Prod.fst = s.gXTsk.head.map Prod.fst ∧
      (xTaskNotify s handle bits).gXTsk.cur = s.gXTsk.cur ∧
      (xTaskNotify s handle bits).gXTsk.running = s.gXTsk.running ∧
      (xTaskNotify s handle bits).stk_color = s.stk_color) ∧
    ((handle = 0 ∨ handle = HAL_XTASK_INVALID_HANDLE ∨
        ∃ c, ctxAt s.gXTsk.head handle = some c ∧ c.mem_marker ≠ HAL_XTASK_MEM_MARKER) →
      xTaskNotify s handle bits = s) := by
  constructor
  · intro c h0 hinv hat hmark
    have hx : xTaskNotify s handle bits =
        { s with gXTsk := { s.gXTsk with
            head := ctxStore s.gXTsk.head handle { c with events := c.events ||| bits } } } := by
      simp [xTaskNotify, h0, hinv, hat, xTaskNotify_ctx, hmark, HAL_SET_BIT]
    rw [hx]
    refine ⟨ctxAt_ctxStore_self _ _ c _ hat, fun q hq => ctxAt_ctxStore_ne _ _ _ _ hq,
      fun i a c0 hi ha => ctxStore_other_position _ _ _ i a c0 hi ha,
      ctxStore_addresses _ _ _, rfl, rfl, rfl⟩
  · rintro (h | h | ⟨c, hat, hmark⟩)
    · simp [xTaskNotify, h]
    · simp [xTaskNotify, h]
    · by_cases hv : handle ≠ 0 ∧ handle ≠ HAL_XTASK_INVALID_HANDLE
      · simp only [xTaskNotify, hv, and_self, if_true, hat, xTaskNotify_ctx, hmark, if_false,
          ne_eq, not_false_eq_true]
        rw [ctxStore_same _ _ _ hat]
      · simp only [xTaskNotify, hv, if_false]

/-- Witness for C6: in the two-task state, a notification of the first task
with mask 5, and one through the null handle. -/
theorem xTaskNotify_frame_witness :
    (ctxAt (xTaskNotify twoTasks 1000 5).gXTsk.head 1000 =
        some { xTaskCreate_ctx [84, 49] 4096 16 0 8192 65 with
          events := (xTaskCreate_ctx [84, 49] 4096 16 0 8192 65).events ||| 5 } ∧
      (∀ q, q ≠ 1000 →
        ctxAt (xTaskNotify twoTasks 1000 5).gXTsk.head q = ctxAt twoTasks.gXTsk.head q) ∧
      (∀ (i a : Nat) (c0 : XTask_CtxTypeDef),
        twoTasks.gXTsk.head[i]? = some (a, c0) → a ≠ 1000 →
        (xTaskNotify twoTasks 1000 5).gXTsk.head[i]? = some (a, c0)) ∧
      (xTaskNotify twoTasks 1000 5).gXTsk.head.map Prod.fst =
        twoTasks.gXTsk.head.map Prod.fst ∧
      (xTaskNotify twoTasks 1000 5).gXTsk.cur = twoTasks.gXTsk.cur ∧
      (xTaskNotify twoTasks 1000 5).gXTsk.running = twoTasks.gXTsk.running ∧
      (xTaskNotify twoTasks 1000 5).stk_color = twoTasks.stk_color) ∧
    xTaskNotify twoTasks 0 5 = twoTasks :=
  ⟨(xTaskNotify_frame twoTasks 1000 5).1 (xTaskCreate_ctx [84, 49] 4096 16 0 8192 65)
      (by decide) (by decide) rfl rfl,
    (xTaskNotify_frame twoTasks 0 5).2 (Or.inl rfl)⟩

/-! ### Unions of masks -/

theorem foldl_or_testBit (l : List Nat) (a i : Nat) :
    (l.foldl (fun acc m => acc ||| m) a).testBit i =
      (a.testBit i || l.any (fun m => m.testBit i)) := by
  induction l generalizing a with
  | nil => simp
  | cons x xs ih => simp [List.foldl_cons, ih, Nat.testBit_or, Bool.or_assoc]

/-- The union of a sequence of masks depends only on which masks occur. -/
theorem maskUnion_congr (l1 l2 : List Nat) (h : ∀ m, m ∈ l1 ↔ m ∈ l2) :
    maskUnion l1 = maskUnion l2 := by
  apply Nat.eq_of_testBit_eq
  intro i
  simp only [maskUnion, foldl_or_testBit, Nat.zero_testBit, Bool.false_or]
  rw [Bool.eq_iff_iff]
  simp only [List.any_eq_true]
  constructor
  · rintro ⟨m, hm, hb⟩
    exact ⟨m, (h m).1 hm, hb⟩
  · rintro ⟨m, hm, hb⟩
    exact ⟨m, (h m).2 hm, hb⟩

/-- A sequence of notifications through a valid handle is one store of the
accumulated union. -/
theorem notifyAll_eq (masks : List Nat) (s : SchedState) (A : Nat) (c : XTask_CtxTypeDef)
    (hA0 : A ≠ 0) (hAi : A ≠ HAL_XTASK_INVALID_HANDLE)
    (hat : ctxAt s.gXTsk.head A = some c) (hmark : c.mem_marker = HAL_XTASK_MEM_MARKER) :
    notifyAll s A masks =
      { s with gXTsk := { s.gXTsk with
          head := ctxStore s.gXTsk.head A
            { c with events := masks.foldl (fun acc m => acc ||| m) c.events } } } := by
  induction masks generalizing s c with
  | nil =>
    simp only [notifyAll, List.foldl_nil]
    rw [ctxStore_same _ _ _ hat]
  | cons m ms ih =>
    have hx : xTaskNotify s A m =
        { s with gXTsk := { s.gXTsk with
            head := ctxStore s.gXTsk.head A { c with events := c.events ||| m } } } := by
      simp [xTaskNotify, hA0, hAi, hat, xTaskNotify_ctx, hmark, HAL_SET_BIT]
    have hat1 : ctxAt (xTaskNotify s A m).gXTsk.head A =
        some { c with events := c.events ||| m } := by
      rw [hx]; exact ctxAt_ctxStore_self _ _ c _ hat
    have := ih (xTaskNotify s A m) { c with events := c.events ||| m } hat1 hmark
    simp only [notifyAll, List.foldl_cons] at this ⊢
    rw [this, hx]
    simp only [ctxStore_ctxStore]

/-- C5: for a valid handle A whose block is suspended in `xTaskNotifyWait`
with `events == 0`, the calls `xTaskNotify(A, m1)`, ..., `xTaskNotify(A, mk)`
leave `events == m1 | ... | mk`; the resulting state is the same for every
sequence with the same set of masks, so order and repetitions do not matter;
a union that is not 0 makes the next visit resume A, and the visit that
resumes A makes that call return exactly the union and clears `events`. -/
theorem xTaskNotify_coalesces (s : SchedState) (A : Nat) (c : XTask_CtxTypeDef)
    (masks masks2 : List Nat)
    (hA0 : A ≠ 0) (hAi : A ≠ HAL_XTASK_INVALID_HANDLE)
    (hat : ctxAt s.gXTsk.head A = some c) (hmark : c.mem_marker = HAL_XTASK_MEM_MARKER)
    (hrun : c.running = true) (hdl : c.delay_end = 0) (he0 : c.events = 0) :
    ctxAt (notifyAll s A masks).gXTsk.head A = some { c with events := maskUnion masks } ∧
    ((∀ m, m ∈ masks ↔ m ∈ masks2) → notifyAll s A masks2 = notifyAll s A masks) ∧
    (maskUnion masks ≠ 0 → ∀ t1 t2 t3,
      (schedVisit { c with events := maskUnion masks } t1 t2 t3).2 = true) ∧
    (∀ st t1 t2 t3 t4,
      (schedVisit { c with events := maskUnion masks } t1 t2 t3).2 = true →
      ∃ s2, taskStep
          { ctx := { c with events := maskUnion masks }
            phase := TaskPhase.inWait
            stored := st } (TaskEvent.visit t1 t2 t3 t4) = some s2 ∧
        s2.phase = TaskPhase.resumed ∧ s2.stored = some (maskUnion masks) ∧
        s2.ctx.events = 0) := by
  have key : ∀ l : List Nat, notifyAll s A l =
      { s with gXTsk := { s.gXTsk with
          head := ctxStore s.gXTsk.head A { c with events := maskUnion l } } } := by
    intro l
    rw [notifyAll_eq l s A c hA0 hAi hat hmark, he0]
    rfl
  refine ⟨?_, ?_, ?_, ?_⟩
  · rw [key]
    exact ctxAt_ctxStore_self _ _ c _ hat
  · intro hsame
    rw [key, key, maskUnion_congr masks masks2 hsame]
  · intro hne t1 t2 t3
    rw [schedVisit_snd]
    exact ⟨⟨hrun, Or.inr (Or.inl hne)⟩, Or.inl hdl⟩
  · intro st t1 t2 t3 t4 hres
    exact ⟨_, visit_inWait_resumes
      { ctx := { c with events := maskUnion masks }
        phase := TaskPhase.inWait
        stored := st } t1 t2 t3 t4 rfl hres, rfl, rfl, rfl⟩

/-- Witness for C5: the second task of the two-task state, suspended in
`xTaskNotifyWait`, receives the masks 1, 4, 1 and, in another order, 4, 1. -/
theorem xTaskNotify_coalesces_witness :
    ctxAt (notifyAll
        { twoTasks with gXTsk := { twoTasks.gXTsk with
            head := ctxStore twoTasks.gXTsk.head 2000
              { xTaskCreate_ctx [84, 50] 4100 16 0 12288 66 with
                running := true, pendingEvent := true } } }
        2000 [1, 4, 1]).gXTsk.head 2000 =
      some { xTaskCreate_ctx [84, 50] 4100 16 0 12288 66 with
        running := true, pendingEvent := true, events := maskUnion [1, 4, 1] } ∧
    notifyAll
        { twoTasks with gXTsk := { twoTasks.gXTsk with
            head := ctxStore twoTasks.gXTsk.head 2000
              { xTaskCreate_ctx [84, 50] 4100 16 0 12288 66 with
                running := true, pendingEvent := true } } }
        2000 [4, 1] =
      notifyAll
        { twoTasks with gXTsk := { twoTasks.gXTsk with
            head := ctxStore twoTasks.gXTsk.head 2000
              { xTaskCreate_ctx [84, 50] 4100 16 0 12288 66 with
                running := true, pendingEvent := true } } }
        2000 [1, 4, 1] :=
  ⟨(xTaskNotify_coalesces
      { twoTasks with gXTsk := { twoTasks.gXTsk with
          head := ctxStore twoTasks.gXTsk.head 2000
            { xTaskCreate_ctx [84, 50] 4100 16 0 12288 66 with
              running := true, pendingEvent := true } } }
      2000
      { xTaskCreate_ctx [84, 50] 4100 16 0 12288 66 with running := true, pendingEvent := true }
      [1, 4, 1] [4, 1]
      (by decide) (by decide) (by decide) rfl rfl rfl rfl).1,
    (xTaskNotify_coalesces
      { twoTasks with gXTsk := { twoTasks.gXTsk with
          head := ctxStore twoTasks.gXTsk.head 2000
            { xTaskCreate_ctx [84, 50] 4100 16 0 12288 66 with
              running := true, pendingEvent := true } } }
      2000
      { xTaskCreate_ctx [84, 50] 4100 16 0 12288 66 with running := true, pendingEvent := true }
      [1, 4, 1] [4, 1]
      (by decide) (by decide) (by decide) rfl rfl rfl rfl).2.1
      (by simp)⟩

/-- C7: in task context (`xTaskGetContext` finds the block `c` and `c` is
running), for every timeout argument a call of `xTaskNotifyWait` with
`events != 0` returns that `events` value at once, without `vTaskJump`,
changing only `events` (to 0) and `pendingEvent` (to false), so that
`event_expire_end` is untouched; and a visit that resumes a task suspended in
`xTaskNotifyWait` makes the call return the `events` held at that moment and
leaves `events == 0` and `pendingEvent == false`. -/
theorem xTaskNotifyWait_returns_events (s : SchedState) (sp tick ticksToWait : Nat)
    (c : XTask_CtxTypeDef)
    (hctx : xTaskGetContext s.gXTsk sp ≠ 0)
    (hat : ctxAt s.gXTsk.head (xTaskGetContext s.gXTsk sp) = some c)
    (hrun : c.running = true) (hev : c.events ≠ 0) :
    xTaskNotifyWait s sp tick ticksToWait =
      ({ s with gXTsk := { s.gXTsk with
          head := ctxStore s.gXTsk.head (xTaskGetContext s.gXTsk sp)
            { c with pendingEvent := false, events := 0 } } }, some c.events) ∧
    (∀ (ts : TaskState) (t1 t2 t3 t4 : Nat), ts.phase = TaskPhase.inWait →
      (schedVisit ts.ctx t1 t2 t3).2 = true →
      ∃ ts1, taskStep ts (TaskEvent.visit t1 t2 t3 t4) = some ts1 ∧
        ts1.phase = TaskPhase.resumed ∧ ts1.stored = some ts.ctx.events ∧
        ts1.ctx.events = 0 ∧ ts1.ctx.pendingEvent = false) := by
  constructor
  · simp [xTaskNotifyWait, hctx, hat, xTaskNotifyWait_ctx, hrun, hev, xTaskNotifyWait_resume]
  · intro ts t1 t2 t3 t4 hph hres
    exact ⟨_, visit_inWait_resumes ts t1 t2 t3 t4 hph hres, rfl, rfl, rfl, rfl⟩

/-- Witness for C7: the first task of the running two-task state, with the
stack pointer inside its stack and event bit 2 pending, calls
`xTaskNotifyWait(5)` at tick 77. -/
theorem xTaskNotifyWait_returns_events_witness :
    xTaskGetContext twoTasksRunning.gXTsk 8200 = 1000 ∧
    xTaskNotifyWait twoTasksRunning 8200 77 5 =
      ({ twoTasksRunning with gXTsk := { twoTasksRunning.gXTsk with
          head := ctxStore twoTasksRunning.gXTsk.head 1000
            { xTaskCreate_ctx [84, 49] 4096 16 0 8192 65 with
              running := true, pendingEvent := false, events := 0 } } }, some 4) :=
  ⟨by decide,
    (xTaskNotifyWait_returns_events twoTasksRunning 8200 77 5
      { xTaskCreate_ctx [84, 49] 4096 16 0 8192 65 with running := true, events := 4 }
      (by decide) (by decide) rfl (by decide)).1⟩

/-- C10: while the scheduler's `running` flag is set, `xTaskCreate` returns
`HAL_XTASK_INVALID_HANDLE`, which is `0xFFFFFFFF`, for every name, entry,
stack size, argument and outcome of `malloc`, and leaves the whole state, the
task list and every block of it included, as it was. -/
theorem xTaskCreate_refused_when_running (s : SchedState) (name : List Nat)
    (cb stackSize ptr mctx mstk : Nat) (hrun : s.gXTsk.running = true) :
    xTaskCreate s name cb stackSize ptr mctx mstk = some (s, HAL_XTASK_INVALID_HANDLE) ∧
    HAL_XTASK_INVALID_HANDLE = 0xFFFFFFFF := by
  refine ⟨?_, rfl⟩
  simp only [xTaskCreate, hrun, if_true]

/-- Witness for C10: a creation attempted in the running two-task state. -/
theorem xTaskCreate_refused_when_running_witness :
    xTaskCreate twoTasksRunning [84, 51] 4200 16 0 3000 16384 =
      some (twoTasksRunning, HAL_XTASK_INVALID_HANDLE) ∧
    HAL_XTASK_INVALID_HANDLE = 0xFFFFFFFF :=
  xTaskCreate_refused_when_running twoTasksRunning [84, 51] 4200 16 0 3000 16384 rfl

/-! ### Creation and scheduler start -/

/-- C11, the code at the failing input: after one successful `xTaskCreate`,
`vTaskStartScheduler` passes its guards and the bootstrap pass enters the
task with `gXTsk.running` still false; the task, found by `xTaskGetContext`
with its stack pointer at 8200, calls `xTaskCreate` in this first run
segment and gets the handle 2000, not `HAL_XTASK_INVALID_HANDLE`, and the
task list has grown to two elements. -/
theorem xTaskCreate_accepted_during_bootstrap :
    xTaskCreate SchedState.init [84, 49] 4096 16 0 1000 8192 = some (oneTask, 1000) ∧
    vTaskStartScheduler oneTask = StartResult.bootstrap oneTask ∧
    (bootstrapEnter oneTask 1000).2 = true ∧
    (bootstrapEnter oneTask 1000).1.gXTsk.running = false ∧
    xTaskGetContext (bootstrapEnter oneTask 1000).1.gXTsk 8200 = 1000 ∧
    (xTaskCreate (bootstrapEnter oneTask 1000).1 [84, 50] 4100 16 0 2000 12288).map
      (fun r => (r.2, LL_FOREACH r.1.gXTsk.head)) = some (2000, [1000, 2000]) ∧
    (2000 : Nat) ≠ HAL_XTASK_INVALID_HANDLE := by
  refine ⟨by decide, by decide, by decide, by decide, by decide, by decide, by decide⟩

/-- C14, the code at the failing input: with the scheduler not running, the
first `malloc` returning 1000 and the second returning `NULL`, a call of
`xTaskCreate` with stack size 16 computes `sp_top = 16`, passes the test of
line 410 and faults at the fill of line 413; it does not return
`HAL_XTASK_INVALID_HANDLE`.  Only a stack size of 0 makes line 410 catch the
failed allocation, and a failed first `malloc` is caught at line 391. -/
theorem xTaskCreate_null_stack_faults :
    xTaskCreate SchedState.init [84, 49] 4096 16 0 1000 0 = none ∧
    xTaskCreate SchedState.init [84, 49] 4096 0 0 1000 0 =
      some ({ SchedState.init with stk_color := 66 }, HAL_XTASK_INVALID_HANDLE) ∧
    xTaskCreate SchedState.init [84, 49] 4096 16 0 0 8192 =
      some (SchedState.init, HAL_XTASK_INVALID_HANDLE) := by
  refine ⟨by decide, by decide, by decide⟩

/-- C15: when the scheduler is already running or the task list is empty,
`vTaskStartScheduler` returns false at its guards: it does not reach the
bootstrap pass, so it enters no task, and the state, every block and the
`running` flag included, is as it was. -/
theorem vTaskStartScheduler_refuses (s : SchedState)
    (h : s.gXTsk.running = true ∨ s.gXTsk.head = []) :
    vTaskStartScheduler s = StartResult.returned false s := by
  rcases h with h | h
  · simp only [vTaskStartScheduler, h, if_true]
  · by_cases hr : s.gXTsk.running = true
    · simp only [vTaskStartScheduler, hr, if_true]
    · simp [vTaskStartScheduler, h]

/-- Witness for C15: the running two-task state, and the state at program
start, whose list is empty. -/
theorem vTaskStartScheduler_refuses_witness :
    vTaskStartScheduler twoTasksRunning = StartResult.returned false twoTasksRunning ∧
    vTaskStartScheduler SchedState.init = StartResult.returned false SchedState.init :=
  ⟨vTaskStartScheduler_refuses twoTasksRunning (Or.inl rfl),
    vTaskStartScheduler_refuses SchedState.init (Or.inr rfl)⟩

/-- C17: when `xTaskGetContext` returns `NULL` for the state and the stack
pointer, `taskYIELD`, `vTaskDelay` for every delay and `xTaskNotifyWait` for
every timeout leave the whole state unchanged and do not jump to the
scheduler, and `xTaskNotifyWait` returns 0. -/
theorem out_of_context_calls_are_noops (s : SchedState) (sp tick ms t : Nat)
    (h : xTaskGetContext s.gXTsk sp = 0) :
    taskYIELD s sp = (s, false) ∧
    vTaskDelay s sp tick ms = (s, false) ∧
    xTaskNotifyWait s sp tick t = (s, some 0) := by
  refine ⟨?_, ?_, ?_⟩
  · simp only [taskYIELD, h, if_true]
  · simp only [vTaskDelay, h, if_true]
  · simp only [xTaskNotifyWait, h, if_true]

/-- Witness for C17: the three calls in the running two-task state with the
stack pointer at 9000, outside the stack of the current task, and in the
state at program start, where `gXTsk.cur` is `NULL`. -/
theorem out_of_context_calls_are_noops_witness :
    (taskYIELD twoTasksRunning 9000 = (twoTasksRunning, false) ∧
      vTaskDelay twoTasksRunning 9000 50 2000 = (twoTasksRunning, false) ∧
      xTaskNotifyWait twoTasksRunning 9000 50 5 = (twoTasksRunning, some 0)) ∧
    (taskYIELD SchedState.init 8200 = (SchedState.init, false) ∧
      vTaskDelay SchedState.init 8200 50 2000 = (SchedState.init, false) ∧
      xTaskNotifyWait SchedState.init 8200 50 5 = (SchedState.init, some 0)) :=
  ⟨out_of_context_calls_are_noops twoTasksRunning 9000 50 2000 5 (by decide),
    out_of_context_calls_are_noops SchedState.init 8200 50 2000 5 (by decide)⟩

/-- A call of `xTaskCreate` that returns a handle other than
`HAL_XTASK_INVALID_HANDLE` returned the address of the new block, appended
that block to the list, and filled no more bytes than it allocated. -/
theorem xTaskCreate_success (s s1 : SchedState) (name : List Nat)
    (cb stackSize ptr mctx mstk h : Nat)
    (hcall : xTaskCreate s name cb stackSize ptr mctx mstk = some (s1, h))
    (hok : h ≠ HAL_XTASK_INVALID_HANDLE) :
    h = mctx ∧
    s1.gXTsk.head =
      s.gXTsk.head ++ [(h, xTaskCreate_ctx name cb stackSize ptr mstk s.stk_color)] ∧
    stackSize ≤ (stackSize + 1024) % U32 := by
  simp only [xTaskCreate] at hcall
  split_ifs at hcall with h1 h2 h3 h4 h5
  · simp only [Option.some.injEq, Prod.mk.injEq] at hcall
    exact absurd hcall.2.symm hok
  · simp only [Option.some.injEq, Prod.mk.injEq] at hcall
    exact absurd hcall.2.symm hok
  · simp only [Option.some.injEq, Prod.mk.injEq] at hcall
    exact absurd hcall.2.symm hok
  · simp only [Option.some.injEq, Prod.mk.injEq] at hcall
    obtain ⟨hs, hh⟩ := hcall
    subst hs hh
    refine ⟨rfl, rfl, ?_⟩
    simp only [xTaskCreate_ctx] at h5
    exact not_lt.mp h5

/-- A call of `xTaskCreate` that does not fault keeps the list it found as a
prefix of the list it leaves. -/
theorem xTaskCreate_keeps_prefix (s s1 : SchedState) (name : List Nat)
    (cb stackSize ptr mctx mstk h : Nat)
    (hcall : xTaskCreate s name cb stackSize ptr mctx mstk = some (s1, h)) :
    ∃ tail, s1.gXTsk.head = s.gXTsk.head ++ tail := by
  simp only [xTaskCreate] at hcall
  split_ifs at hcall with h1 h2 h3 h4 h5
  all_goals simp only [Option.some.injEq, Prod.mk.injEq] at hcall
  all_goals obtain ⟨hs, -⟩ := hcall
  all_goals subst hs
  · exact ⟨[], (List.append_nil _).symm⟩
  · exact ⟨[], (List.append_nil _).symm⟩
  · exact ⟨[], (List.append_nil _).symm⟩
  · exact ⟨_, rfl⟩

/-- A sequence of successful creations appends one block per call, in call
order, the address of each being the handle returned. -/
theorem createAll_appends (args : List CreateArgs) (s s1 : SchedState) (hs : List Nat)
    (hcreate : createAll s args = some (s1, hs))
    (hok : ∀ h ∈ hs, h ≠ HAL_XTASK_INVALID_HANDLE) :
    ∃ blocks, s1.gXTsk.head = s.gXTsk.head ++ blocks ∧ blocks.map Prod.fst = hs := by
  induction args generalizing s hs with
  | nil =>
    simp only [createAll, Option.some.injEq, Prod.mk.injEq] at hcreate
    obtain ⟨h1, h2⟩ := hcreate
    subst h1 h2
    exact ⟨[], (List.append_nil _).symm, rfl⟩
  | cons a rest ih =>
    simp only [createAll] at hcreate
    cases hx : xTaskCreate s a.name a.cb a.stackSize a.ptr a.mctx a.mstk with
    | none => simp [hx] at hcreate
    | some r =>
      obtain ⟨s2, h⟩ := r
      rw [hx] at hcreate
      simp only at hcreate
      cases hr : createAll s2 rest with
      | none => simp [hr] at hcreate
      | some q =>
        obtain ⟨s3, hs3⟩ := q
        rw [hr] at hcreate
        simp only [Option.some.injEq, Prod.mk.injEq] at hcreate
        obtain ⟨e1, e2⟩ := hcreate
        subst e1 e2
        have hh : h ≠ HAL_XTASK_INVALID_HANDLE := hok h (List.mem_cons_self _ _)
        obtain ⟨-, hhead, -⟩ := xTaskCreate_success s s2 a.name a.cb a.stackSize a.ptr
          a.mctx a.mstk h hx hh
        obtain ⟨blocks, hb1, hb2⟩ := ih s2 hs3 hr
          (fun h1 hm => hok h1 (List.mem_cons_of_mem _ hm))
        refine ⟨(h, xTaskCreate_ctx a.name a.cb a.stackSize a.ptr a.mstk s.stk_color) :: blocks,
          ?_, ?_⟩
        · rw [hb1, hhead, List.append_assoc]
          rfl
        · simp only [List.map_cons, hb2]

/-- No operation other than `xTaskCreate` changes which addresses the list
holds or their order. -/
theorem applyOp_addresses (s : SchedState) (op : SchedOp) :
    LL_FOREACH (applyOp s op).gXTsk.head = LL_FOREACH s.gXTsk.head := by
  cases op with
  | notify handle event =>
    simp only [applyOp, xTaskNotify, LL_FOREACH]
    split_ifs
    · split
      · exact ctxStore_addresses _ _ _
      · rfl
    · rfl
  | yield sp =>
    simp only [applyOp, taskYIELD, LL_FOREACH]
    split_ifs
    · rfl
    · split
      · exact ctxStore_addresses _ _ _
      · rfl
  | delay sp tick delay =>
    simp only [applyOp, vTaskDelay, LL_FOREACH]
    split_ifs
    · rfl
    · split
      · exact ctxStore_addresses _ _ _
      · rfl
  | wait sp tick ticksToWait =>
    simp only [applyOp, xTaskNotifyWait, LL_FOREACH]
    split_ifs
    · rfl
    · split
      · exact ctxStore_addresses _ _ _
      · rfl
  | waitResume p =>
    simp only [applyOp, xTaskNotifyWait_resumeAt, LL_FOREACH]
    split
    · exact ctxStore_addresses _ _ _
    · rfl
  | enter p =>
    simp only [applyOp, bootstrapEnter, LL_FOREACH]
    split
    · split_ifs
      · exact ctxStore_addresses _ _ _
      · rfl
    · rfl
  | started => rfl
  | visit p t1 t2 t3 =>
    simp only [applyOp, schedVisitAt, LL_FOREACH]
    split
    · exact ctxStore_addresses _ _ _
    · rfl
  | collect p t4 =>
    simp only [applyOp, schedCollectAt, LL_FOREACH]
    split
    · exact ctxStore_addresses _ _ _
    · rfl

theorem applyOps_addresses (ops : List SchedOp) (s : SchedState) :
    LL_FOREACH (ops.foldl applyOp s).gXTsk.head = LL_FOREACH s.gXTsk.head := by
  induction ops generalizing s with
  | nil => rfl
  | cons op rest ih =>
    rw [List.foldl_cons, ih (applyOp s op), applyOp_addresses]

/-- C12: a sequence of successful calls of `xTaskCreate` leaves the list it
found as a prefix and appends the created blocks in call order, so that the
traversal takes the handles in creation order after the addresses already
listed; and no sequence of the other operations (notify, yield, delay, wait
and its resumption, the bootstrap steps, the visits and the statistics of
the main loop) changes the addresses the traversal takes or their order. -/
theorem task_list_in_creation_order (s s1 : SchedState) (args : List CreateArgs)
    (hs : List Nat)
    (hcreate : createAll s args = some (s1, hs))
    (hok : ∀ h ∈ hs, h ≠ HAL_XTASK_INVALID_HANDLE) :
    (∃ blocks, s1.gXTsk.head = s.gXTsk.head ++ blocks ∧ blocks.map Prod.fst = hs) ∧
    LL_FOREACH s1.gXTsk.head = LL_FOREACH s.gXTsk.head ++ hs ∧
    ∀ ops : List SchedOp,
      LL_FOREACH (ops.foldl applyOp s1).gXTsk.head = LL_FOREACH s.gXTsk.head ++ hs := by
  obtain ⟨blocks, hb1, hb2⟩ := createAll_appends args s s1 hs hcreate hok
  have horder : LL_FOREACH s1.gXTsk.head = LL_FOREACH s.gXTsk.head ++ hs := by
    simp only [LL_FOREACH, hb1, List.map_append, hb2]
  refine ⟨⟨blocks, hb1, hb2⟩, horder, fun ops => ?_⟩
  rw [applyOps_addresses, horder]

/-- Witness for C12: the two creations that lead from the state at program
start to the two-task state. -/
theorem task_list_in_creation_order_witness :
    (∃ blocks, twoTasks.gXTsk.head = SchedState.init.gXTsk.head ++ blocks ∧
      blocks.map Prod.fst = [1000, 2000]) ∧
    LL_FOREACH twoTasks.gXTsk.head = LL_FOREACH SchedState.init.gXTsk.head ++ [1000, 2000] ∧
    ∀ ops : List SchedOp,
      LL_FOREACH (ops.foldl applyOp twoTasks).gXTsk.head =
        LL_FOREACH SchedState.init.gXTsk.head ++ [1000, 2000] :=
  task_list_in_creation_order SchedState.init twoTasks
    [{ name := [84, 49], cb := 4096, stackSize := 16, ptr := 0, mctx := 1000, mstk := 8192 },
     { name := [84, 50], cb := 4100, stackSize := 16, ptr := 0, mctx := 2000, mstk := 12288 }]
    [1000, 2000] (by decide) (by decide)

/-- C13: a call `xTaskCreate(name, entry, stack_size, arg)` that returns a
handle other than `HAL_XTASK_INVALID_HANDLE`, the stack buffer `malloc`
returned lying inside the 32-bit address space, appends a block with the
magic marker, `event_expire_end == 0xFFFFFFFF`, `events == 0`,
`delay_end == 0`, the three flags false, the four statistics 0, entry,
argument and stack size as passed and `sp_top == sp_bottom + stak_size`; no
visit resumes that block at any tick, and once the bootstrap pass has set
`running` no visit at a tick below `0xFFFFFFFF` would. -/
theorem xTaskCreate_initial_block (s s1 : SchedState) (name : List Nat)
    (cb stackSize ptr mctx mstk h : Nat)
    (hcall : xTaskCreate s name cb stackSize ptr mctx mstk = some (s1, h))
    (hok : h ≠ HAL_XTASK_INVALID_HANDLE)
    (hmalloc : mstk + (stackSize + 1024) % U32 ≤ U32) :
    ∃ c, s1.gXTsk.head = s.gXTsk.head ++ [(h, c)] ∧
      c.mem_marker = HAL_XTASK_MEM_MARKER ∧ c.event_expire_end = 0xFFFFFFFF ∧
      c.events = 0 ∧ c.delay_end = 0 ∧
      c.yielding = false ∧ c.pendingEvent = false ∧ c.running = false ∧
      c.ticks_accumulated = 0 ∧ c.ticks_peek = 0 ∧ c.ticks_avg = 0 ∧ c.ticks_start = 0 ∧
      c.cb = cb ∧ c.args = ptr ∧ c.stak_size = stackSize ∧
      c.sp_top = c.sp_bottom + c.stak_size ∧
      (∀ t1 t2 t3, (schedVisit c t1 t2 t3).2 = false) ∧
      (∀ t1 t2 t3, t1 < 0xFFFFFFFF →
        (schedVisit { c with running := true } t1 t2 t3).2 = false) := by
  obtain ⟨-, hhead, hfill⟩ := xTaskCreate_success s s1 name cb stackSize ptr mctx mstk h hcall hok
  refine ⟨xTaskCreate_ctx name cb stackSize ptr mstk s.stk_color, hhead, rfl, rfl, rfl, rfl,
    rfl, rfl, rfl, rfl, rfl, rfl, rfl, rfl, rfl, rfl, ?_, ?_, ?_⟩
  · simp only [xTaskCreate_ctx]
    apply Nat.mod_eq_of_lt
    simp only [U32] at hmalloc hfill ⊢
    omega
  · intro t1 t2 t3
    rw [← Bool.not_eq_true, schedVisit_snd]
    rintro ⟨⟨hr, -⟩, -⟩
    simp [xTaskCreate_ctx] at hr
  · intro t1 t2 t3 hlt
    rw [← Bool.not_eq_true, schedVisit_snd]
    rintro ⟨⟨-, hy | he | hge⟩, -⟩
    · simp [xTaskCreate_ctx] at hy
    · simp [xTaskCreate_ctx] at he
    · simp only [xTaskCreate_ctx, HAL_XTASK_MAX_TIME] at hge
      omega

/-- Witness for C13: the first creation of a program, with stack size 16,
`malloc` returning the addresses 1000 and 8192. -/
theorem xTaskCreate_initial_block_witness :
    ∃ c, oneTask.gXTsk.head = SchedState.init.gXTsk.head ++ [(1000, c)] ∧
      c.mem_marker = HAL_XTASK_MEM_MARKER ∧ c.event_expire_end = 0xFFFFFFFF ∧
      c.events = 0 ∧ c.delay_end = 0 ∧
      c.yielding = false ∧ c.pendingEvent = false ∧ c.running = false ∧
      c.ticks_accumulated = 0 ∧ c.ticks_peek = 0 ∧ c.ticks_avg = 0 ∧ c.ticks_start = 0 ∧
      c.cb = 4096 ∧ c.args = 0 ∧ c.stak_size = 16 ∧
      c.sp_top = c.sp_bottom + c.stak_size ∧
      (∀ t1 t2 t3, (schedVisit c t1 t2 t3).2 = false) ∧
      (∀ t1 t2 t3, t1 < 0xFFFFFFFF →
        (schedVisit { c with running := true } t1 t2 t3).2 = false) :=
  xTaskCreate_initial_block SchedState.init oneTask [84, 49] 4096 16 0 1000 8192 1000
    (by decide) (by decide) (by decide)

/-! ### Current-task identification -/

/-- The macro `HAL_VAL_IN_RANGE` on 32-bit values with `low <= high` tests
the closed range. -/
theorem HAL_VAL_IN_RANGE_iff (val low high : Nat) (hval : val < U32) (hle : low ≤ high)
    (hhigh : high < U32) :
    HAL_VAL_IN_RANGE val low high = true ↔ low ≤ val ∧ val ≤ high := by
  simp only [HAL_VAL_IN_RANGE, decide_eq_true_iff, U32] at *
  omega

/-- C16, as amended: when `gXTsk.cur`, if not `NULL`, addresses the block `c`
with `sp_bottom <= sp_top`, `xTaskGetContext` returns `cur`, not `NULL`,
exactly when `cur` is not `NULL`, `sp_bottom <= SP <= sp_top` (the closed
range, `sp_top` included) and the marker of `c` is the magic constant, and
`xTaskGetHandle` is then `cur`; otherwise `xTaskGetContext` returns `NULL`
and `xTaskGetHandle` returns `HAL_XTASK_INVALID_HANDLE`. -/
theorem xTaskGetContext_iff (g : XTask_ConfigTypeDef) (sp : Nat) (c : XTask_CtxTypeDef)
    (hsp : sp < U32)
    (hcur : g.cur ≠ 0 → ctxAt g.head g.cur = some c)
    (hle : c.sp_bottom ≤ c.sp_top) (htop : c.sp_top < U32) :
    ((xTaskGetContext g sp = g.cur ∧ g.cur ≠ 0) ↔
      (g.cur ≠ 0 ∧ c.sp_bottom ≤ sp ∧ sp ≤ c.sp_top ∧
        c.mem_marker = HAL_XTASK_MEM_MARKER)) ∧
    ((g.cur ≠ 0 ∧ c.sp_bottom ≤ sp ∧ sp ≤ c.sp_top ∧
        c.mem_marker = HAL_XTASK_MEM_MARKER) → xTaskGetHandle g sp = g.cur) ∧
    (¬ (g.cur ≠ 0 ∧ c.sp_bottom ≤ sp ∧ sp ≤ c.sp_top ∧
        c.mem_marker = HAL_XTASK_MEM_MARKER) →
      xTaskGetContext g sp = 0 ∧ xTaskGetHandle g sp = HAL_XTASK_INVALID_HANDLE) := by
  have hrange := HAL_VAL_IN_RANGE_iff sp c.sp_bottom c.sp_top hsp hle htop
  by_cases h0 : g.cur = 0
  · have hx : xTaskGetContext g sp = 0 := by simp [xTaskGetContext, h0]
    refine ⟨⟨fun h => absurd h0 h.2, fun h => absurd h0 h.1⟩, fun h => absurd h0 h.1, fun _ => ?_⟩
    exact ⟨hx, by simp [xTaskGetHandle, hx]⟩
  · have hat := hcur h0
    by_cases hin : c.sp_bottom ≤ sp ∧ sp ≤ c.sp_top
    · by_cases hm : c.mem_marker = HAL_XTASK_MEM_MARKER
      · have hx : xTaskGetContext g sp = g.cur := by
          simp [xTaskGetContext, h0, hat, hrange.2 hin, hm]
        refine ⟨⟨fun _ => ⟨h0, hin.1, hin.2, hm⟩, fun _ => ⟨hx, h0⟩⟩, fun _ => ?_, fun h => ?_⟩
        · simp [xTaskGetHandle, hx, h0]
        · exact absurd ⟨h0, hin.1, hin.2, hm⟩ h
      · have hx : xTaskGetContext g sp = 0 := by
          simp [xTaskGetContext, h0, hat, hm]
        refine ⟨⟨fun h => ?_, fun h => absurd h.2.2.2 hm⟩, fun h => absurd h.2.2.2 hm,
          fun _ => ⟨hx, by simp [xTaskGetHandle, hx]⟩⟩
        exact absurd (hx.symm.trans h.1).symm h0
    · have hnr : ¬ HAL_VAL_IN_RANGE sp c.sp_bottom c.sp_top = true := fun h => hin (hrange.1 h)
      have hx : xTaskGetContext g sp = 0 := by
        simp [xTaskGetContext, h0, hat, hnr]
      refine ⟨⟨fun h => ?_, fun h => absurd ⟨h.2.1, h.2.2.1⟩ hin⟩,
        fun h => absurd ⟨h.2.1, h.2.2.1⟩ hin,
        fun _ => ⟨hx, by simp [xTaskGetHandle, hx]⟩⟩
      exact absurd (hx.symm.trans h.1).symm h0

/-- Witness for C16: the running two-task state with the stack pointer at
8200, inside the stack of the current task. -/
theorem xTaskGetContext_iff_witness :
    xTaskGetHandle twoTasksRunning.gXTsk 8200 = twoTasksRunning.gXTsk.cur :=
  (xTaskGetContext_iff twoTasksRunning.gXTsk 8200
    { xTaskCreate_ctx [84, 49] 4096 16 0 8192 65 with running := true, events := 4 }
    (by decide) (fun _ => rfl) (by decide) (by decide)).2.1
    ⟨by decide, by decide, by decide, rfl⟩

/-- Counterexample to C16 as stated: in the running two-task state the
current block has `sp_bottom = 8192` and `sp_top = 8208`; with the stack
pointer at 8208, which is not below `sp_top`, `xTaskGetContext` returns the
current block and `xTaskGetHandle` its handle. -/
theorem xTaskGetContext_accepts_stack_top :
    twoTasksRunning.gXTsk.cur = 1000 ∧
    (ctxAt twoTasksRunning.gXTsk.head 1000).map
      (fun c => (c.sp_bottom, c.sp_top, decide (c.mem_marker = HAL_XTASK_MEM_MARKER))) =
        some (8192, 8208, true) ∧
    ¬ ((8208 : Nat) < 8208) ∧
    xTaskGetContext twoTasksRunning.gXTsk 8208 = 1000 ∧
    xTaskGetHandle twoTasksRunning.gXTsk 8208 = 1000 := by
  refine ⟨by decide, by decide, by decide, by decide, by decide⟩

/-! ### Stack usage -/

/-- For a fill byte below `0x80` the comparison of line 184 is equality of
bytes. -/
theorem charValue_eq_iff (b color : Nat) (hb : b < 256) (hc : color < 128) :
    charValue b = ((color % 256 : Nat) : Int) ↔ b = color := by
  simp only [charValue]
  split_ifs <;> omega

/-- The scan never counts more than `stak_size` bytes. -/
theorem stackScan_le (color size : Nat) (l : List Nat) (k : Nat) (hk : k ≤ size) :
    stackScan color size l k ≤ size := by
  induction l generalizing k with
  | nil => exact hk
  | cons b rest ih =>
    simp only [stackScan]
    split_ifs with h1 h2
    · exact hk
    · exact ih (k + 1) h1
    · exact hk

/-- For a fill byte below `0x80` the scan counts the longest prefix of bytes
equal to the fill byte, up to `stak_size`. -/
theorem stackScan_eq (color size : Nat) (l : List Nat) (k : Nat)
    (hbytes : ∀ b ∈ l, b < 256) (hc : color < 128) (hk : k ≤ size) :
    stackScan color size l k =
      k + min ((l.takeWhile (fun b => decide (b = color))).length) (size - k) := by
  induction l generalizing k with
  | nil => simp [stackScan]
  | cons b rest ih =>
    have hb : b < 256 := hbytes b (List.mem_cons_self _ _)
    have hrest : ∀ x ∈ rest, x < 256 := fun x hx => hbytes x (List.mem_cons_of_mem _ hx)
    have hiff := charValue_eq_iff b color hb hc
    simp only [stackScan]
    by_cases h1 : k < size
    · by_cases h2 : b = color
      · subst h2
        have h3 : ¬ charValue b ≠ ((b % 256 : Nat) : Int) := fun h => h (hiff.2 rfl)
        have ht : (List.takeWhile (fun x => decide (x = b)) (b :: rest)).length =
            (List.takeWhile (fun x => decide (x = b)) rest).length + 1 := by
          simp [List.takeWhile_cons]
        rw [if_pos h1, if_neg h3, ih (k + 1) hrest h1, ht]
        omega
      · have h3 : charValue b ≠ ((color % 256 : Nat) : Int) := fun h => h2 (hiff.1 h)
        have ht : List.takeWhile (fun x => decide (x = color)) (b :: rest) = [] := by
          simp [List.takeWhile_cons, h2]
        rw [if_pos h1, if_pos h3, ht]
        simp
    · have hz : size - k = 0 := by omega
      rw [if_neg h1, hz]
      simp

/-- The quotient of line 192 is at most 100. -/
theorem usage_quotient_le (free size : Nat) (hfree : free ≤ size) :
    (free * 100) % U32 / size ≤ 100 := by
  apply Nat.div_le_of_le_mul
  calc (free * 100) % U32 ≤ free * 100 := Nat.mod_le _ _
    _ ≤ size * 100 := Nat.mul_le_mul_right 100 hfree

/-- The value line 192 stores, for a quotient that is at most 100. -/
theorem toInt32_usage (q : Nat) (hq : q ≤ 100) :
    toInt32 ((100 + U32 - q % U32) % U32) = 100 - (q : Int) := by
  simp only [toInt32, U32]
  split_ifs <;> omega

/-- For a block with a stack size that is not 0, `xTaskGetStackUsage` gives
100 minus the quotient of line 192, a value from 0 to 100. -/
theorem xTaskGetStackUsage_ctx_value (c : XTask_CtxTypeDef)
    (hpos : 0 < c.stak_size) (hsz : c.stak_size < U32) :
    xTaskGetStackUsage_ctx c =
      some (100 - (((stackScan c.stk_color c.stak_size c.stack 0 * 100) % U32 / c.stak_size
        : Nat) : Int)) ∧
    (stackScan c.stk_color c.stak_size c.stack 0 * 100) % U32 / c.stak_size ≤ 100 := by
  have hfree := stackScan_le c.stk_color c.stak_size c.stack 0 (Nat.zero_le _)
  have hq := usage_quotient_le _ _ hfree
  have hmod : c.stak_size % U32 = c.stak_size := Nat.mod_eq_of_lt hsz
  refine ⟨?_, hq⟩
  have hne : ¬ c.stak_size = 0 := by omega
  simp only [xTaskGetStackUsage_ctx, hmod, hne, if_false]
  rw [toInt32_usage _ hq]

/-- With `free <= size` and `size > 0`, 100 minus `free * 100 / size` is
`(size - free) * 100 / size` or one more. -/
theorem usage_rounds_up (free size : Nat) (hfree : free ≤ size) (hpos : 0 < size) :
    (size - free) * 100 / size + free * 100 / size ≤ 100 ∧
    99 ≤ (size - free) * 100 / size + free * 100 / size := by
  have e1 := Nat.div_add_mod (free * 100) size
  have e2 := Nat.div_add_mod ((size - free) * 100) size
  have r1 := Nat.mod_lt (free * 100) hpos
  have r2 := Nat.mod_lt ((size - free) * 100) hpos
  have hsum : (size - free) * 100 + free * 100 = size * 100 := by omega
  have hdist : size * ((size - free) * 100 / size + free * 100 / size) =
      size * ((size - free) * 100 / size) + size * (free * 100 / size) := Nat.mul_add _ _ _
  constructor
  · apply Nat.le_of_mul_le_mul_left _ hpos
    rw [hdist]
    omega
  · have hlt : size * 100 < size * ((size - free) * 100 / size + free * 100 / size + 2) := by
      rw [Nat.mul_add, hdist]
      omega
    have := Nat.lt_of_mul_lt_mul_left hlt
    omega

/-- C18, as amended: for a valid handle whose block has the magic marker, a
stack size that is not 0 and a fill byte below `0x80`, `xTaskGetStackUsage`
returns 100 minus `free * 100 / stak_size`, the product taken modulo
`2 ^ 32`, where free is the length of the longest prefix of the stack, from
`sp_bottom` up, whose bytes equal the fill byte, capped at `stak_size`; when
the product does not wrap this is the spec's `used * 100 / stak_size` or one
more than it. -/
theorem xTaskGetStackUsage_formula (s : SchedState) (handle : Nat) (c : XTask_CtxTypeDef)
    (h0 : handle ≠ 0) (hinv : handle ≠ HAL_XTASK_INVALID_HANDLE)
    (hat : ctxAt s.gXTsk.head handle = some c)
    (hmark : c.mem_marker = HAL_XTASK_MEM_MARKER)
    (hpos : 0 < c.stak_size) (hsz : c.stak_size < U32)
    (hcolor : c.stk_color < 128) (hbytes : ∀ b ∈ c.stack, b < 256) :
    xTaskGetStackUsage s handle =
      some (100 - (((specFree c * 100) % U32 / c.stak_size : Nat) : Int)) ∧
    (specFree c * 100 < U32 →
      xTaskGetStackUsage s handle =
        some (100 - ((specFree c * 100 / c.stak_size : Nat) : Int)) ∧
      specStackUsage c ≤ 100 - ((specFree c * 100 / c.stak_size : Nat) : Int) ∧
      100 - ((specFree c * 100 / c.stak_size : Nat) : Int) ≤ specStackUsage c + 1) := by
  have hscan : stackScan c.stk_color c.stak_size c.stack 0 = specFree c := by
    rw [stackScan_eq c.stk_color c.stak_size c.stack 0 hbytes hcolor (Nat.zero_le _)]
    simp [specFree]
  have hval := (xTaskGetStackUsage_ctx_value c hpos hsz).1
  rw [hscan] at hval
  have hx : xTaskGetStackUsage s handle =
      some (100 - (((specFree c * 100) % U32 / c.stak_size : Nat) : Int)) := by
    simp only [xTaskGetStackUsage, h0, hinv, ne_eq, not_false_eq_true, and_self, if_true, hat,
      hmark]
    exact hval
  refine ⟨hx, fun hsmall => ?_⟩
  have hfree : specFree c ≤ c.stak_size := by
    simp only [specFree]
    exact Nat.min_le_right _ _
  obtain ⟨hle, hge⟩ := usage_rounds_up (specFree c) c.stak_size hfree hpos
  refine ⟨?_, ?_, ?_⟩
  · rw [hx, Nat.mod_eq_of_lt hsmall]
  · simp only [specStackUsage]
    omega
  · simp only [specStackUsage]
    omega

/-- Witness for C18: the task that has used 11 of its 16 stack bytes. -/
theorem xTaskGetStackUsage_formula_witness :
    xTaskGetStackUsage usedStackTask 1000 =
      some (100 - (((specFree { xTaskCreate_ctx [84, 49] 4096 16 0 8192 65 with
          stack := [65, 65, 65, 65, 65, 0, 0, 0, 0, 0, 0, 0, 0, 0, 0, 0] } * 100) % U32 / 16
        : Nat) : Int)) :=
  (xTaskGetStackUsage_formula usedStackTask 1000
    { xTaskCreate_ctx [84, 49] 4096 16 0 8192 65 with
      stack := [65, 65, 65, 65, 65, 0, 0, 0, 0, 0, 0, 0, 0, 0, 0, 0] }
    (by decide) (by decide) rfl rfl (by decide) (by decide) (by decide) (by decide)).1

/-- Counterexample to C18 as stated.  A task with fill byte 65 that has used
11 of its 16 stack bytes has 5 free bytes; the spec's `used * 100 / 16` is
68 and `xTaskGetStackUsage` returns 69.  A task with fill byte `0x80` and an
untouched 16-byte stack has 16 free bytes; the spec's value is 0 and
`xTaskGetStackUsage` returns 100. -/
theorem xTaskGetStackUsage_differs_from_spec :
    (ctxAt usedStackTask.gXTsk.head 1000).map
      (fun c => (decide (c.mem_marker = HAL_XTASK_MEM_MARKER), c.stak_size, specFree c,
        specStackUsage c)) = some (true, 16, 5, 68) ∧
    xTaskGetStackUsage usedStackTask 1000 = some 69 ∧
    (ctxAt highColorTask.gXTsk.head 1000).map
      (fun c => (decide (c.mem_marker = HAL_XTASK_MEM_MARKER), c.stak_size, specFree c,
        specStackUsage c)) = some (true, 16, 16, 0) ∧
    xTaskGetStackUsage highColorTask 1000 = some 100 := by
  refine ⟨by decide, by decide, by decide, by decide⟩

/-- For a valid handle whose block has a stack size that is not 0,
`xTaskGetStackUsage` returns a value from 0 to 100, whatever the stack holds
and also when the product of line 192 wraps. -/
theorem xTaskGetStackUsage_range (s : SchedState) (handle : Nat) (c : XTask_CtxTypeDef)
    (h0 : handle ≠ 0) (hinv : handle ≠ HAL_XTASK_INVALID_HANDLE)
    (hat : ctxAt s.gXTsk.head handle = some c)
    (hmark : c.mem_marker = HAL_XTASK_MEM_MARKER)
    (hpos : 0 < c.stak_size) (hsz : c.stak_size < U32) :
    ∃ u : Int, xTaskGetStackUsage s handle = some u ∧ 0 ≤ u ∧ u ≤ 100 := by
  obtain ⟨hval, hq⟩ := xTaskGetStackUsage_ctx_value c hpos hsz
  have hx : xTaskGetStackUsage s handle = xTaskGetStackUsage_ctx c := by
    simp only [xTaskGetStackUsage, h0, hinv, ne_eq, not_false_eq_true, and_self, if_true, hat,
      hmark]
  rw [hx, hval]
  generalize (stackScan c.stk_color c.stak_size c.stack 0 * 100) % U32 / c.stak_size = q at hq
  exact ⟨100 - (q : Int), rfl, by omega, by omega⟩

/-- C19, the code at the failing input: a call of `xTaskCreate` with stack
size 0, `malloc` returning 1000 and 8192, succeeds and returns the handle
1000, whose block has the magic marker and `stak_size == 0`; the call of
`xTaskGetStackUsage` on that handle divides by zero at line 192. -/
theorem xTaskGetStackUsage_zero_stack_divides_by_zero :
    (xTaskCreate SchedState.init [84, 49] 4096 0 0 1000 8192).map
      (fun r => (r.2, (ctxAt r.1.gXTsk.head r.2).map
        (fun c => (decide (c.mem_marker = HAL_XTASK_MEM_MARKER), c.stak_size)))) =
      some (1000, some (true, 0)) ∧
    (xTaskCreate SchedState.init [84, 49] 4096 0 0 1000 8192).map
      (fun r => xTaskGetStackUsage r.1 r.2) = some none := by
  refine ⟨by decide, by decide⟩

/-- C20: with a null handle, with `HAL_XTASK_INVALID_HANDLE`, or with a
handle whose block has a marker other than the magic constant,
`xTaskGetStackUsage` returns -1, and it does so in every state that has the
same marker at the handle, whatever the stacks hold: no stack byte takes
part in the result. -/
theorem xTaskGetStackUsage_invalid (s : SchedState) (handle : Nat)
    (h : handle = 0 ∨ handle = HAL_XTASK_INVALID_HANDLE ∨
      ∃ c, ctxAt s.gXTsk.head handle = some c ∧ c.mem_marker ≠ HAL_XTASK_MEM_MARKER) :
    xTaskGetStackUsage s handle = some (-1) ∧
    ∀ s2 : SchedState,
      (ctxAt s2.gXTsk.head handle).map (fun c => c.mem_marker) =
        (ctxAt s.gXTsk.head handle).map (fun c => c.mem_marker) →
      xTaskGetStackUsage s2 handle = some (-1) := by
  have key : ∀ s2 : SchedState,
      (ctxAt s2.gXTsk.head handle).map (fun c => c.mem_marker) =
        (ctxAt s.gXTsk.head handle).map (fun c => c.mem_marker) →
      xTaskGetStackUsage s2 handle = some (-1) := by
    intro s2 hsame
    rcases h with h | h | ⟨c, hat, hm⟩
    · simp [xTaskGetStackUsage, h]
    · simp [xTaskGetStackUsage, h]
    · rw [hat] at hsame
      simp only [xTaskGetStackUsage]
      split_ifs
      · cases hc : ctxAt s2.gXTsk.head handle with
        | none => rfl
        | some c2 =>
          rw [hc] at hsame
          simp only [Option.map_some', Option.some.injEq] at hsame
          have hm2 : ¬ c2.mem_marker = HAL_XTASK_MEM_MARKER := fun e => hm (hsame ▸ e)
          simp only [hm2, if_false]
      · rfl
  exact ⟨key s rfl, key⟩

/-- Witness for C20: the null handle in the two-task state. -/
theorem xTaskGetStackUsage_invalid_witness :
    xTaskGetStackUsage twoTasks 0 = some (-1) ∧
    ∀ s2 : SchedState,
      (ctxAt s2.gXTsk.head 0).map (fun c => c.mem_marker) =
        (ctxAt twoTasks.gXTsk.head 0).map (fun c => c.mem_marker) →
      xTaskGetStackUsage s2 0 = some (-1) :=
  xTaskGetStackUsage_invalid twoTasks 0 (Or.inl rfl)

/-! ### Fill bytes -/

/-- A call of `xTaskCreate` that returns a handle other than
`HAL_XTASK_INVALID_HANDLE` advanced the colour seed by one, in one byte. -/
theorem xTaskCreate_success_color (s s1 : SchedState) (name : List Nat)
    (cb stackSize ptr mctx mstk h : Nat)
    (hcall : xTaskCreate s name cb stackSize ptr mctx mstk = some (s1, h))
    (hok : h ≠ HAL_XTASK_INVALID_HANDLE) :
    s1.stk_color = (s.stk_color + 1) % 256 := by
  simp only [xTaskCreate] at hcall
  split_ifs at hcall with h1 h2 h3 h4 h5
  all_goals simp only [Option.some.injEq, Prod.mk.injEq] at hcall
  · exact absurd hcall.2.symm hok
  · exact absurd hcall.2.symm hok
  · exact absurd hcall.2.symm hok
  · obtain ⟨hs, -⟩ := hcall
    subst hs
    rfl

/-- The fill bytes a sequence of successful creations assigns: the seed
advanced once per call, in one byte. -/
theorem createAll_colors (args : List CreateArgs) (s s1 : SchedState) (hs : List Nat)
    (hcreate : createAll s args = some (s1, hs))
    (hok : ∀ h ∈ hs, h ≠ HAL_XTASK_INVALID_HANDLE) :
    ∃ blocks, s1.gXTsk.head = s.gXTsk.head ++ blocks ∧
      blocks.map (fun b => b.2.stk_color) =
        (List.range args.length).map (fun i => (s.stk_color + i) % 256) := by
  induction args generalizing s hs with
  | nil =>
    simp only [createAll, Option.some.injEq, Prod.mk.injEq] at hcreate
    obtain ⟨h1, -⟩ := hcreate
    subst h1
    exact ⟨[], (List.append_nil _).symm, rfl⟩
  | cons a rest ih =>
    simp only [createAll] at hcreate
    cases hx : xTaskCreate s a.name a.cb a.stackSize a.ptr a.mctx a.mstk with
    | none => simp [hx] at hcreate
    | some r =>
      obtain ⟨s2, h⟩ := r
      rw [hx] at hcreate
      simp only at hcreate
      cases hr : createAll s2 rest with
      | none => simp [hr] at hcreate
      | some q =>
        obtain ⟨s3, hs3⟩ := q
        rw [hr] at hcreate
        simp only [Option.some.injEq, Prod.mk.injEq] at hcreate
        obtain ⟨e1, e2⟩ := hcreate
        subst e1 e2
        have hh : h ≠ HAL_XTASK_INVALID_HANDLE := hok h (List.mem_cons_self _ _)
        obtain ⟨-, hhead, -⟩ := xTaskCreate_success s s2 a.name a.cb a.stackSize a.ptr
          a.mctx a.mstk h hx hh
        have hcol := xTaskCreate_success_color s s2 a.name a.cb a.stackSize a.ptr
          a.mctx a.mstk h hx hh
        obtain ⟨blocks, hb1, hb2⟩ := ih s2 hs3 hr
          (fun h1 hm => hok h1 (List.mem_cons_of_mem _ hm))
        refine ⟨(h, xTaskCreate_ctx a.name a.cb a.stackSize a.ptr a.mstk s.stk_color) :: blocks,
          ?_, ?_⟩
        · rw [hb1, hhead, List.append_assoc]
          rfl
        · rw [List.map_cons, hb2, hcol, List.length_cons, List.range_succ_eq_map,
            List.map_cons, List.map_map]
          congr 1
          apply List.map_congr_left
          intro i _
          simp only [Function.comp, Nat.succ_eq_add_one]
          omega

/-- C21, as amended: after `n <= 256` successful calls of `xTaskCreate` from
program start, and no other call in between, the task at position `i`
(counted from 0) has the fill byte `(65 + i) mod 256`, the seed `A` advanced
`i` times in one byte, and the fill bytes of the tasks are pairwise
distinct. -/
theorem fill_bytes_distinct (args : List CreateArgs) (s1 : SchedState) (hs : List Nat)
    (hcreate : createAll SchedState.init args = some (s1, hs))
    (hok : ∀ h ∈ hs, h ≠ HAL_XTASK_INVALID_HANDLE)
    (hn : args.length ≤ 256) :
    s1.gXTsk.head.map (fun b => b.2.stk_color) =
      (List.range args.length).map (fun i => (65 + i) % 256) ∧
    (s1.gXTsk.head.map (fun b => b.2.stk_color)).Nodup := by
  obtain ⟨blocks, hb1, hb2⟩ := createAll_colors args SchedState.init s1 hs hcreate hok
  have hcolors : s1.gXTsk.head.map (fun b => b.2.stk_color) =
      (List.range args.length).map (fun i => (65 + i) % 256) := by
    rw [hb1]
    simp only [SchedState.init, List.nil_append] at hb2 ⊢
    exact hb2
  refine ⟨hcolors, ?_⟩
  rw [hcolors]
  apply List.Nodup.map_on _ (List.nodup_range _)
  intro x hx y hy hxy
  rw [List.mem_range] at hx hy
  omega

/-- Witness for C21: the two creations that lead to the two-task state. -/
theorem fill_bytes_distinct_witness :
    twoTasks.gXTsk.head.map (fun b => b.2.stk_color) =
      (List.range 2).map (fun i => (65 + i) % 256) ∧
    (twoTasks.gXTsk.head.map (fun b => b.2.stk_color)).Nodup :=
  fill_bytes_distinct
    [{ name := [84, 49], cb := 4096, stackSize := 16, ptr := 0, mctx := 1000, mstk := 8192 },
     { name := [84, 50], cb := 4100, stackSize := 16, ptr := 0, mctx := 2000, mstk := 12288 }]
    twoTasks [1000, 2000] (by decide) (by decide) (by decide)

set_option maxRecDepth 1000000 in
/-- Counterexample to C21 as stated: 257 calls of `xTaskCreate` from program
start all succeed, and the first task and the 257th both get the fill byte
65. -/
theorem fill_bytes_collide_at_257 :
    (createAll SchedState.init (manyArgs 257)).map
      (fun r => (r.2.length, r.2.all (fun h => decide (h ≠ HAL_XTASK_INVALID_HANDLE)),
        (r.1.gXTsk.head.map (fun b => b.2.stk_color))[0]?,
        (r.1.gXTsk.head.map (fun b => b.2.stk_color))[256]?)) =
      some (257, true, some 65, some 65) := by
  decide

/-! ### Statistics -/

/-- No call of a task writes to the statistics of its block. -/
theorem applyCall_stats (c : XTask_CtxTypeDef) (k : TaskCall) :
    (applyCall c k).ticks_start = c.ticks_start ∧
    (applyCall c k).ticks_peek = c.ticks_peek ∧
    (applyCall c k).ticks_accumulated = c.ticks_accumulated := by
  cases k with
  | notify event =>
    simp only [applyCall, xTaskNotify_ctx]
    split_ifs <;> exact ⟨rfl, rfl, rfl⟩
  | yield =>
    simp only [applyCall, taskYIELD_ctx]
    split_ifs <;> exact ⟨rfl, rfl, rfl⟩
  | delay tick delay =>
    simp only [applyCall, vTaskDelay_ctx]
    split_ifs <;> exact ⟨rfl, rfl, rfl⟩
  | wait tick ticksToWait =>
    simp only [applyCall, xTaskNotifyWait_ctx, xTaskNotifyWait_resume]
    split_ifs <;> exact ⟨rfl, rfl, rfl⟩

theorem applyCalls_stats (calls : List TaskCall) (c : XTask_CtxTypeDef) :
    (calls.foldl applyCall c).ticks_start = c.ticks_start ∧
    (calls.foldl applyCall c).ticks_peek = c.ticks_peek ∧
    (calls.foldl applyCall c).ticks_accumulated = c.ticks_accumulated := by
  induction calls generalizing c with
  | nil => exact ⟨rfl, rfl, rfl⟩
  | cons k rest ih =>
    obtain ⟨h1, h2, h3⟩ := ih (applyCall c k)
    obtain ⟨g1, g2, g3⟩ := applyCall_stats c k
    rw [List.foldl_cons]
    exact ⟨h1.trans g1, h2.trans g2, h3.trans g3⟩

/-- C22, as amended: when a visit dispatches a task at tick `s` and the main
loop has control again at tick `e >= s`, whatever calls the task made in
between: if `s` is not 0, line 552 leaves `ticks_peek == max(old ticks_peek,
e - s)` and line 553 leaves `ticks_accumulated == old ticks_accumulated +
(e - s)` modulo `2 ^ 32`; if `s` is 0, both statistics are as they were; in
both cases `ticks_peek` does not decrease. -/
theorem stats_after_dispatch (c : XTask_CtxTypeDef) (t1 t2 s e : Nat)
    (calls : List TaskCall)
    (hres : (schedVisit c t1 t2 s).2 = true)
    (hse : s ≤ e) (he : e < U32) :
    (0 < s →
      (schedCollect (calls.foldl applyCall (schedVisit c t1 t2 s).1) e).ticks_peek =
        max c.ticks_peek (e - s) ∧
      (schedCollect (calls.foldl applyCall (schedVisit c t1 t2 s).1) e).ticks_accumulated =
        (c.ticks_accumulated + (e - s)) % U32) ∧
    (s = 0 →
      (schedCollect (calls.foldl applyCall (schedVisit c t1 t2 s).1) e).ticks_peek =
        c.ticks_peek ∧
      (schedCollect (calls.foldl applyCall (schedVisit c t1 t2 s).1) e).ticks_accumulated =
        c.ticks_accumulated) ∧
    c.ticks_peek ≤
      (schedCollect (calls.foldl applyCall (schedVisit c t1 t2 s).1) e).ticks_peek := by
  obtain ⟨k1, k2, k3⟩ := applyCalls_stats calls (schedVisit c t1 t2 s).1
  have hfst := schedVisit_fst_of_resume c t1 t2 s hres
  have j1 : (calls.foldl applyCall (schedVisit c t1 t2 s).1).ticks_start = s :=
    k1.trans (by rw [hfst])
  have j2 : (calls.foldl applyCall (schedVisit c t1 t2 s).1).ticks_peek = c.ticks_peek :=
    k2.trans (by rw [hfst])
  have j3 : (calls.foldl applyCall (schedVisit c t1 t2 s).1).ticks_accumulated =
      c.ticks_accumulated := k3.trans (by rw [hfst])
  generalize calls.foldl applyCall (schedVisit c t1 t2 s).1 = c2 at j1 j2 j3 ⊢
  have hpos : 0 < s →
      (schedCollect c2 e).ticks_peek = max c.ticks_peek (e - s) ∧
      (schedCollect c2 e).ticks_accumulated = (c.ticks_accumulated + (e - s)) % U32 := by
    intro hs
    have hstart : c2.ticks_start > 0 := by rw [j1]; exact hs
    have hspent : (e + U32 - c2.ticks_start % U32) % U32 = e - s := by
      rw [j1]
      simp only [U32] at he ⊢
      omega
    constructor
    · simp only [schedCollect, hstart, if_true, hspent, HAL_MAX, j2]
      split_ifs with hgt
      · exact (max_eq_left (le_of_lt hgt)).symm
      · exact (max_eq_right (not_lt.mp hgt)).symm
    · simp only [schedCollect, hstart, if_true, hspent, j3]
  have hzero : s = 0 →
      (schedCollect c2 e).ticks_peek = c.ticks_peek ∧
      (schedCollect c2 e).ticks_accumulated = c.ticks_accumulated := by
    intro hs
    rw [schedCollect_of_zero c2 e (j1.trans hs)]
    exact ⟨j2, j3⟩
  refine ⟨hpos, hzero, ?_⟩
  rcases Nat.eq_zero_or_pos s with hs | hs
  · rw [(hzero hs).1]
  · rw [(hpos hs).1]
    exact le_max_left _ _

/-- Witness for C22: a yielding task dispatched at tick 100 that yields again,
the main loop having control again at tick 107. -/
theorem stats_after_dispatch_witness :
    (schedCollect ([TaskCall.yield].foldl applyCall
        (schedVisit { (TaskState.fresh [84] 4096 16 0 8192 65).ctx with
          running := true, yielding := true } 100 100 100).1) 107).ticks_peek =
      max 0 (107 - 100) ∧
    (schedCollect ([TaskCall.yield].foldl applyCall
        (schedVisit { (TaskState.fresh [84] 4096 16 0 8192 65).ctx with
          running := true, yielding := true } 100 100 100).1) 107).ticks_accumulated =
      (0 + (107 - 100)) % U32 :=
  (stats_after_dispatch
    { (TaskState.fresh [84] 4096 16 0 8192 65).ctx with running := true, yielding := true }
    100 100 100 107 [TaskCall.yield] (by decide) (by decide) (by decide)).1 (by decide)

/-- Counterexample to C22 as stated: a task created by `xTaskCreate` and
started by the bootstrap pass yields, is dispatched at tick `0xFFFFFFFA` and
yields at tick `0xFFFFFFFF`, which leaves `ticks_peek == 5` and
`ticks_accumulated == 5`; the tick wraps, the next visit dispatches the task
at tick `s = 0` and the main loop has control again at tick `e = 7`; both
statistics are still 5, not `max(5, 7 - 0)` and `5 + (7 - 0)`. -/
theorem stats_skipped_at_tick_zero :
    (runTask (TaskState.fresh [84] 4096 16 0 8192 65)
        [TaskEvent.start, TaskEvent.callYield 0,
         TaskEvent.visit 4294967290 4294967290 4294967290 0,
         TaskEvent.callYield 4294967295]).map
      (fun ts => (ts.phase, ts.ctx.ticks_peek, ts.ctx.ticks_accumulated)) =
        some (TaskPhase.inYield, 5, 5) ∧
    (runTask (TaskState.fresh [84] 4096 16 0 8192 65)
        [TaskEvent.start, TaskEvent.callYield 0,
         TaskEvent.visit 4294967290 4294967290 4294967290 0,
         TaskEvent.callYield 4294967295, TaskEvent.visit 0 0 0 0]).map
      (fun ts => (ts.phase, ts.ctx.ticks_start, ts.ctx.ticks_peek,
        ts.ctx.ticks_accumulated)) = some (TaskPhase.resumed, 0, 5, 5) ∧
    (runTask (TaskState.fresh [84] 4096 16 0 8192 65)
        [TaskEvent.start, TaskEvent.callYield 0,
         TaskEvent.visit 4294967290 4294967290 4294967290 0,
         TaskEvent.callYield 4294967295, TaskEvent.visit 0 0 0 0,
         TaskEvent.callYield 7]).map
      (fun ts => (ts.phase, ts.ctx.ticks_peek, ts.ctx.ticks_accumulated)) =
        some (TaskPhase.inYield, 5, 5) ∧
    max 5 (7 - 0) = 7 ∧ (5 + (7 - 0)) % U32 = 12 := by
  refine ⟨by decide, by decide, by decide, by decide, by decide⟩

/-! ### Dispatch and yield -/

/-- C24: a visit that resumes a task leaves, at the moment of the jump,
`delay_end == 0`, `yielding == false` and `ticks_start` equal to the tick
read at line 540, and does not change `events`, `event_expire_end`,
`pendingEvent` or `running`; so the state in which `taskYIELD` or
`vTaskDelay` returns to its caller, which is the state the resuming visit
leaves, has `delay_end == 0` and `yielding == false`. -/
theorem dispatch_effects (c : XTask_CtxTypeDef) (t1 t2 now : Nat)
    (hres : (schedVisit c t1 t2 now).2 = true) :
    (schedVisit c t1 t2 now).1.delay_end = 0 ∧
    (schedVisit c t1 t2 now).1.yielding = false ∧
    (schedVisit c t1 t2 now).1.ticks_start = now ∧
    (schedVisit c t1 t2 now).1.events = c.events ∧
    (schedVisit c t1 t2 now).1.event_expire_end = c.event_expire_end ∧
    (schedVisit c t1 t2 now).1.pendingEvent = c.pendingEvent ∧
    (schedVisit c t1 t2 now).1.running = c.running ∧
    (∀ (ph : TaskPhase) (st : Option Nat) (t4 : Nat),
      ph = TaskPhase.inYield ∨ ph = TaskPhase.inDelay →
      ∃ ts1, taskStep { ctx := c, phase := ph, stored := st }
          (TaskEvent.visit t1 t2 now t4) = some ts1 ∧
        ts1.phase = TaskPhase.resumed ∧ ts1.ctx.delay_end = 0 ∧ ts1.ctx.yielding = false) := by
  have hfst := schedVisit_fst_of_resume c t1 t2 now hres
  refine ⟨by rw [hfst], by rw [hfst], by rw [hfst], by rw [hfst], by rw [hfst], by rw [hfst],
    by rw [hfst], ?_⟩
  intro ph st t4 hph
  refine ⟨{ ctx := (schedVisit c t1 t2 now).1, phase := TaskPhase.resumed, stored := st },
    ?_, rfl, by simp only [hfst], by simp only [hfst]⟩
  rcases hph with h | h <;> subst h <;> simp [taskStep, hres]

/-- Witness for C24: a task suspended in `vTaskDelay` with `delay_end == 50`
and visited at tick 60. -/
theorem dispatch_effects_witness :
    (schedVisit { (TaskState.fresh [84] 4096 16 0 8192 65).ctx with
        running := true, yielding := true, delay_end := 50 } 60 60 60).1.delay_end = 0 ∧
    (schedVisit { (TaskState.fresh [84] 4096 16 0 8192 65).ctx with
        running := true, yielding := true, delay_end := 50 } 60 60 60).1.yielding = false ∧
    (schedVisit { (TaskState.fresh [84] 4096 16 0 8192 65).ctx with
        running := true, yielding := true, delay_end := 50 } 60 60 60).1.ticks_start = 60 :=
  ⟨(dispatch_effects
      { (TaskState.fresh [84] 4096 16 0 8192 65).ctx with
        running := true, yielding := true, delay_end := 50 } 60 60 60 (by decide)).1,
    (dispatch_effects
      { (TaskState.fresh [84] 4096 16 0 8192 65).ctx with
        running := true, yielding := true, delay_end := 50 } 60 60 60 (by decide)).2.1,
    (dispatch_effects
      { (TaskState.fresh [84] 4096 16 0 8192 65).ctx with
        running := true, yielding := true, delay_end := 50 } 60 60 60 (by decide)).2.2.1⟩

theorem runTask_append (evs1 evs2 : List TaskEvent) (s : TaskState) :
    runTask s (evs1 ++ evs2) = (runTask s evs1).bind (fun s1 => runTask s1 evs2) := by
  induction evs1 generalizing s with
  | nil => rfl
  | cons e es ih =>
    simp only [List.cons_append, runTask]
    cases taskStep s e with
    | none => rfl
    | some s1 => exact ih s1

/-- Notifications change neither the phase of a task nor the flags and the
delay deadline of its block. -/
theorem notifies_keep_flags (masks : List Nat) (s : TaskState) :
    ∃ s1, runTask s (masks.map TaskEvent.notify) = some s1 ∧ s1.phase = s.phase ∧
      s1.ctx.running = s.ctx.running ∧ s1.ctx.yielding = s.ctx.yielding ∧
      s1.ctx.delay_end = s.ctx.delay_end := by
  induction masks generalizing s with
  | nil => exact ⟨s, rfl, rfl, rfl, rfl, rfl⟩
  | cons m ms ih =>
    obtain ⟨s1, h1, h2, h3, h4, h5⟩ := ih { s with ctx := xTaskNotify_ctx s.ctx m }
    refine ⟨s1, ?_, h2, ?_, ?_, ?_⟩
    · simp only [List.map_cons, runTask, taskStep, Option.some_bind]
      exact h1
    · rw [h3]; simp only [xTaskNotify_ctx]; split_ifs <;> rfl
    · rw [h4]; simp only [xTaskNotify_ctx]; split_ifs <;> rfl
    · rw [h5]; simp only [xTaskNotify_ctx]; split_ifs <;> rfl

/-- C25: in every reachable state, when an executing task calls `taskYIELD`,
the call suspends it with `yielding` set, and the next visit of the main
loop resumes it at every tick, whatever notifications arrived in between and
whatever `events`, `pendingEvent` and `event_expire_end` hold, because
`delay_end` is 0 while a task executes. -/
theorem yield_redispatched_at_next_visit (s : TaskState) (t4 t1 t2 t3 t5 : Nat)
    (masks : List Nat)
    (hreach : Reachable s)
    (hph : s.phase = TaskPhase.entered ∨ s.phase = TaskPhase.resumed) :
    (∃ s1, runTask s [TaskEvent.callYield t4] = some s1 ∧ s1.phase = TaskPhase.inYield ∧
      s1.ctx.yielding = true ∧ s1.ctx.delay_end = 0) ∧
    ∃ s2, runTask s (TaskEvent.callYield t4 ::
        (masks.map TaskEvent.notify ++ [TaskEvent.visit t1 t2 t3 t5])) = some s2 ∧
      s2.phase = TaskPhase.resumed := by
  have hinv := reachable_inv s hreach
  obtain ⟨c, ph, st⟩ := s
  simp only at hph
  have hflags : c.running = true ∧ c.delay_end = 0 := by
    rcases hph with h | h <;> subst h <;> exact ⟨hinv.2.1, hinv.2.2.2.1⟩
  have hstep : taskStep ⟨c, ph, st⟩ (TaskEvent.callYield t4) =
      some ⟨afterJump ph (taskYIELD_ctx c).1 t4, TaskPhase.inYield, st⟩ := by
    simp [taskStep, hph, taskYIELD_ctx_snd, hflags.1]
  have hy : (afterJump ph (taskYIELD_ctx c).1 t4).yielding = true := by
    rw [(afterJump_flags ph _ t4).2.1]
    simp [taskYIELD_ctx, hflags.1]
  have hr : (afterJump ph (taskYIELD_ctx c).1 t4).running = true := by
    rw [(afterJump_flags ph _ t4).1]
    simp [taskYIELD_ctx, hflags.1]
  have hd : (afterJump ph (taskYIELD_ctx c).1 t4).delay_end = 0 := by
    rw [(afterJump_flags ph _ t4).2.2.1]
    simp [taskYIELD_ctx, hflags.1, hflags.2]
  constructor
  · refine ⟨⟨afterJump ph (taskYIELD_ctx c).1 t4, TaskPhase.inYield, st⟩, ?_, rfl, hy, hd⟩
    simp only [runTask, hstep, Option.some_bind]
  · obtain ⟨s1, g1, g2, g3, g4, g5⟩ := notifies_keep_flags masks
      ⟨afterJump ph (taskYIELD_ctx c).1 t4, TaskPhase.inYield, st⟩
    simp only at g2 g3 g4 g5
    have hres : (schedVisit s1.ctx t1 t2 t3).2 = true := by
      rw [schedVisit_snd]
      exact ⟨⟨g3.trans hr, Or.inl (g4.trans hy)⟩, Or.inl (g5.trans hd)⟩
    have hvisit : taskStep s1 (TaskEvent.visit t1 t2 t3 t5) =
        some { s1 with ctx := (schedVisit s1.ctx t1 t2 t3).1, phase := TaskPhase.resumed } := by
      simp [taskStep, g2, hres]
    refine ⟨{ s1 with ctx := (schedVisit s1.ctx t1 t2 t3).1, phase := TaskPhase.resumed },
      ?_, rfl⟩
    simp only [runTask, hstep, Option.some_bind, runTask_append, g1, hvisit]

/-- Witness for C25: a task in its first run segment yields, is notified with
masks 4 and 1, and is visited at tick 0. -/
theorem yield_redispatched_at_next_visit_witness :
    (∃ s1, runTask
        { ctx := { (TaskState.fresh [84] 4096 16 0 8192 65).ctx with running := true }
          phase := TaskPhase.entered
          stored := none } [TaskEvent.callYield 3] = some s1 ∧
      s1.phase = TaskPhase.inYield ∧ s1.ctx.yielding = true ∧ s1.ctx.delay_end = 0) ∧
    ∃ s2, runTask
        { ctx := { (TaskState.fresh [84] 4096 16 0 8192 65).ctx with running := true }
          phase := TaskPhase.entered
          stored := none }
        (TaskEvent.callYield 3 ::
          ([4, 1].map TaskEvent.notify ++ [TaskEvent.visit 0 0 0 0])) = some s2 ∧
      s2.phase = TaskPhase.resumed :=
  yield_redispatched_at_next_visit
    { ctx := { (TaskState.fresh [84] 4096 16 0 8192 65).ctx with running := true }
      phase := TaskPhase.entered
      stored := none }
    3 0 0 0 0 [4, 1]
    ⟨[84], 4096, 16, 0, 8192, 65, [TaskEvent.start], rfl⟩ (Or.inl rfl)

set_option maxRecDepth 1000000 in
/-- C26, the code at the failing input: 64 calls of `xTaskCreate` with stack
size 16 from program start all succeed; the 64th task gets the fill byte
`0x80`, and `xTaskGetStackUsage` on its handle, right after the creation,
returns 100, while on the handle of the first task, whose fill byte is 65,
it returns 0. -/
theorem fresh_stack_reads_full_at_high_color :
    (createAll SchedState.init (manyArgs 64)).map
      (fun r => (r.2.length, r.2.all (fun h => decide (h ≠ HAL_XTASK_INVALID_HANDLE)),
        r.2.head?, r.2.getLast?)) = some (64, true, some 4096, some 20224) ∧
    (createAll SchedState.init (manyArgs 64)).map
      (fun r => ((ctxAt r.1.gXTsk.head 20224).map (fun c => (c.stk_color, c.stak_size)),
        xTaskGetStackUsage r.1 20224)) = some (some (128, 16), some 100) ∧
    (createAll SchedState.init (manyArgs 64)).map
      (fun r => ((ctxAt r.1.gXTsk.head 4096).map (fun c => (c.stk_color, c.stak_size)),
        xTaskGetStackUsage r.1 4096)) = some (some (65, 16), some 0) := by
  refine ⟨by decide, by decide, by decide⟩

/-! ### The statistics dump -/

/-- For a tick count that is not 0, `HAL_TicksToTime` converts that count and
reads no tick. -/
theorem HAL_TicksToTime_of_ne_zero (ms tick : Nat) (h : ms ≠ 0) :
    (HAL_TicksToTime ms tick).hours = (ms / 3600000) % 24 ∧
    (HAL_TicksToTime ms tick).minutes = (ms / 60000) % 60 ∧
    (HAL_TicksToTime ms tick).seconds = (ms / 1000) % 60 := by
  simp [HAL_TicksToTime, h]

/-- C27, the code at the failing input: in the running two-task state both
blocks have `ticks_accumulated == 0`; with the current tick at 3723000 the
rows of `xTaskDumpStats` carry 1 hour, 2 minutes and 3 seconds, the time of
the tick, and with the current tick at 0 they carry zeros. -/
theorem xTaskDumpStats_zero_accum_shows_tick :
    twoTasksRunning.gXTsk.head.map (fun b => b.2.ticks_accumulated) = [0, 0] ∧
    (xTaskDumpStats twoTasksRunning (fun _ => 3723000)).map
      (fun rows => rows.map (fun r => (r.hours, r.minutes, r.seconds))) =
        some [(1, 2, 3), (1, 2, 3)] ∧
    (xTaskDumpStats twoTasksRunning (fun _ => 0)).map
      (fun rows => rows.map (fun r => (r.hours, r.minutes, r.seconds))) =
        some [(0, 0, 0), (0, 0, 0)] := by
  refine ⟨by decide, by decide, by decide⟩

theorem ctxAt_mem (l : List (Nat × XTask_CtxTypeDef)) (p : Nat) (c : XTask_CtxTypeDef)
    (h : ctxAt l p = some c) : (p, c) ∈ l := by
  induction l with
  | nil => simp [ctxAt] at h
  | cons x xs ih =>
    obtain ⟨a, c0⟩ := x
    by_cases hap : a = p
    · simp only [ctxAt, hap, if_true, Option.some.injEq] at h
      subst hap h
      exact List.mem_cons_self _ _
    · simp only [ctxAt, hap, if_false] at h
      exact List.mem_cons_of_mem _ (ih h)

/-- The stack usage of a handle is computed without a fault when no block of
the list has stack size 0. -/
theorem xTaskGetStackUsage_total (s : SchedState) (p : Nat)
    (hsize : ∀ b ∈ s.gXTsk.head, b.2.stak_size % U32 ≠ 0) :
    ∃ u, xTaskGetStackUsage s p = some u := by
  simp only [xTaskGetStackUsage]
  split_ifs
  · cases hc : ctxAt s.gXTsk.head p with
    | none => exact ⟨-1, rfl⟩
    | some c =>
      simp only
      split_ifs
      · have := hsize (p, c) (ctxAt_mem _ _ _ hc)
        simp only [xTaskGetStackUsage_ctx, this, if_false]
        exact ⟨_, rfl⟩
      · exact ⟨-1, rfl⟩
  · exact ⟨-1, rfl⟩

/-- The rows of the dump loop carry the state text, the stack size and the
peak of the list elements, one row per element, in list order. -/
theorem xTaskDumpStats_loop_rows (s : SchedState) (tick : Nat → Nat)
    (l : List (Nat × XTask_CtxTypeDef)) (i : Nat) (rows : List StatsRow)
    (h : xTaskDumpStats_loop s tick l i = some rows) :
    rows.map (fun r => (r.state, r.stackTotal, r.peek)) =
      l.map (fun b => (tskState b.2, b.2.stak_size, b.2.ticks_peek)) := by
  induction l generalizing i rows with
  | nil =>
    simp only [xTaskDumpStats_loop, Option.some.injEq] at h
    subst h
    rfl
  | cons x xs ih =>
    obtain ⟨p, c⟩ := x
    simp only [xTaskDumpStats_loop] at h
    cases hr : xTaskDumpStats_row s p c (nextLink xs) (tick i) with
    | none => simp [hr] at h
    | some row =>
      rw [hr] at h
      simp only at h
      cases hl : xTaskDumpStats_loop s tick xs (i + 1) with
      | none => simp [hl] at h
      | some rest =>
        rw [hl] at h
        simp only [Option.some.injEq] at h
        subst h
        have hrow : (row.state, row.stackTotal, row.peek) =
            (tskState c, c.stak_size, c.ticks_peek) := by
          simp only [xTaskDumpStats_row] at hr
          cases hu : xTaskGetStackUsage s p with
          | none => simp [hu] at hr
          | some u =>
            rw [hu] at hr
            simp only [Option.some.injEq] at hr
            subst hr
            rfl
        simp only [List.map_cons, hrow, ih (i + 1) rest hl]

/-- The dump loop completes when no block of the list has stack size 0. -/
theorem xTaskDumpStats_loop_total (s : SchedState) (tick : Nat → Nat)
    (hsize : ∀ b ∈ s.gXTsk.head, b.2.stak_size % U32 ≠ 0)
    (l : List (Nat × XTask_CtxTypeDef)) (i : Nat) :
    ∃ rows, xTaskDumpStats_loop s tick l i = some rows := by
  induction l generalizing i with
  | nil => exact ⟨[], rfl⟩
  | cons x xs ih =>
    obtain ⟨p, c⟩ := x
    obtain ⟨u, hu⟩ := xTaskGetStackUsage_total s p hsize
    obtain ⟨rest, hrest⟩ := ih (i + 1)
    simp only [xTaskDumpStats_loop, xTaskDumpStats_row, hu, hrest]
    exact ⟨_, rfl⟩

/-- The state text of a block is Stopped exactly when `running` is false,
Pending exactly when the task runs and `pendingEvent` holds, Delaying exactly
when it runs, is not pending and `delay_end > 0`, and Executing exactly in
the remaining case. -/
theorem tskState_rule (c : XTask_CtxTypeDef) :
    (tskState c = TaskLabel.Stopped ↔ c.running = false) ∧
    (tskState c = TaskLabel.Pending ↔ c.running = true ∧ c.pendingEvent = true) ∧
    (tskState c = TaskLabel.Delaying ↔
      c.running = true ∧ c.pendingEvent = false ∧ c.delay_end > 0) ∧
    (tskState c = TaskLabel.Executing ↔
      c.running = true ∧ c.pendingEvent = false ∧ c.delay_end = 0) := by
  simp only [tskState]
  cases hr : c.running <;> cases hp : c.pendingEvent <;>
    by_cases hd : c.delay_end > 0 <;> simp [hd] <;> omega

/-- A dump that completes prints one row per list element, in list order,
with the state text, the stack size and the peak of that element; and the
dump completes when no block of the list has stack size 0. -/
theorem xTaskDumpStats_rows (s : SchedState) (tick : Nat → Nat) :
    (∀ rows, xTaskDumpStats s tick = some rows →
      rows.length = s.gXTsk.head.length ∧
      rows.map (fun r => (r.state, r.stackTotal, r.peek)) =
        s.gXTsk.head.map (fun b => (tskState b.2, b.2.stak_size, b.2.ticks_peek))) ∧
    ((∀ b ∈ s.gXTsk.head, b.2.stak_size % U32 ≠ 0) →
      ∃ rows, xTaskDumpStats s tick = some rows) := by
  refine ⟨fun rows h => ?_, fun hsize => ?_⟩
  · have hrows := xTaskDumpStats_loop_rows s tick s.gXTsk.head 0 rows h
    refine ⟨?_, hrows⟩
    have := congrArg List.length hrows
    simpa using this
  · exact xTaskDumpStats_loop_total s tick hsize s.gXTsk.head 0

/-- C23, the code at the failing input: two calls of `xTaskCreate` from
program start, the first with stack size 16 and the second with stack size
0, both succeed and leave two blocks whose state text is Stopped; the dump
computes that text for the second block and then divides by zero in the call
of `xTaskGetStackUsage` at line 245, so it prints no row for the second
element, at any tick.  With the first task alone it prints its one row. -/
theorem xTaskDumpStats_stops_at_zero_stack :
    (createAll SchedState.init
        [{ name := [84, 49], cb := 4096, stackSize := 16, ptr := 0, mctx := 1000,
           mstk := 8192 },
         { name := [84, 50], cb := 4100, stackSize := 0, ptr := 0, mctx := 2000,
           mstk := 12288 }]).map
      (fun r => (r.2, r.1.gXTsk.head.map (fun b => (b.2.stak_size, tskState b.2)))) =
      some ([1000, 2000], [(16, TaskLabel.Stopped), (0, TaskLabel.Stopped)]) ∧
    (createAll SchedState.init
        [{ name := [84, 49], cb := 4096, stackSize := 16, ptr := 0, mctx := 1000,
           mstk := 8192 },
         { name := [84, 50], cb := 4100, stackSize := 0, ptr := 0, mctx := 2000,
           mstk := 12288 }]).map
      (fun r => (xTaskDumpStats r.1 (fun _ => 5000), xTaskDumpStats r.1 (fun _ => 0))) =
      some (none, none) ∧
    (xTaskDumpStats oneTask (fun _ => 5000)).map
      (fun rows => rows.map (fun r => (r.name, r.state, r.stackTotal, r.usage))) =
      some [(some [84, 49], TaskLabel.Stopped, 16, 0)] := by
  refine ⟨by decide, by decide, by decide⟩

/-! ### The zero timeout -/

/-- C28: on every block and at every tick `xTaskNotifyWait(0)` does what
`xTaskNotifyWait(0xFFFFFFFF)` does, on the block and at the handle level:
for a running task with `events == 0` both set `pendingEvent`, leave every
other field, `event_expire_end` included, and jump to the scheduler; with
`events != 0` both return `events` at once and clear it. -/
theorem zero_timeout_is_max_timeout (c : XTask_CtxTypeDef) (tick tick2 : Nat)
    (s : SchedState) (sp : Nat) :
    xTaskNotifyWait_ctx c tick 0 = xTaskNotifyWait_ctx c tick2 HAL_XTASK_MAX_TIME ∧
    xTaskNotifyWait s sp tick 0 = xTaskNotifyWait s sp tick2 HAL_XTASK_MAX_TIME ∧
    (c.running = true → c.events = 0 →
      xTaskNotifyWait_ctx c tick 0 = ({ c with pendingEvent := true }, none)) ∧
    (c.running = true → c.events ≠ 0 →
      xTaskNotifyWait_ctx c tick 0 =
        ({ c with pendingEvent := false, events := 0 }, some c.events)) := by
  have key : ∀ b : XTask_CtxTypeDef,
      xTaskNotifyWait_ctx b tick 0 = xTaskNotifyWait_ctx b tick2 HAL_XTASK_MAX_TIME := by
    intro b
    simp [xTaskNotifyWait_ctx]
  refine ⟨key c, ?_, ?_, ?_⟩
  · simp only [xTaskNotifyWait]
    split_ifs
    · rfl
    · cases ctxAt s.gXTsk.head (xTaskGetContext s.gXTsk sp) with
      | none => rfl
      | some b => simp only [key b]
  · intro hr he
    simp [xTaskNotifyWait_ctx, hr, he]
  · intro hr he
    simp [xTaskNotifyWait_ctx, hr, he, xTaskNotifyWait_resume]

/-- Witness for C28: a running block with no event pending, and the same
block with event bit 2 pending. -/
theorem zero_timeout_is_max_timeout_witness :
    xTaskNotifyWait_ctx
        { (TaskState.fresh [84] 4096 16 0 8192 65).ctx with running := true } 10 0 =
      ({ (TaskState.fresh [84] 4096 16 0 8192 65).ctx with
          running := true, pendingEvent := true }, none) ∧
    xTaskNotifyWait_ctx
        { (TaskState.fresh [84] 4096 16 0 8192 65).ctx with running := true, events := 4 }
        10 0 =
      ({ (TaskState.fresh [84] 4096 16 0 8192 65).ctx with
          running := true, pendingEvent := false, events := 0 }, some 4) :=
  ⟨(zero_timeout_is_max_timeout
      { (TaskState.fresh [84] 4096 16 0 8192 65).ctx with running := true }
      10 20 twoTasksRunning 8200).2.2.1 rfl rfl,
    (zero_timeout_is_max_timeout
      { (TaskState.fresh [84] 4096 16 0 8192 65).ctx with running := true, events := 4 }
      10 20 twoTasksRunning 8200).2.2.2 rfl (by decide)⟩

end MicroTasker
